import Mathlib

/-!
Verification of the layer-lifecycle and placement manager of the
`maplibre-gl-splat` repository (class `GaussianSplatControl` in
`src/lib/core/GaussianSplatControl.ts`).

The development shallowly embeds the controller: its registry maps
(`_splatLayers` / `_modelLayers`, JS `Map` objects) become insertion-ordered
association lists, its numeric fields become `Int`, its operations become
pure functions returning the successor state together with the list of
events emitted (in emission order) and, for the asynchronous loaders, an
`Except` mirroring resolve/reject.  The single asynchronous failure point
of each load pipeline (splat mesh construction / scene attach, resp. the
awaited GLTF decode) is an explicit `Option String` parameter: `none` means
the decode/attach step succeeds, `some msg` means it throws `msg`.

JS reference semantics (needed for the `getState` shallow-copy question and
the liveness of the event payload's `state` field) are embedded separately
with a small explicit heap of state objects and rotation triples.
-/

namespace SplatControl

/-! ### Decimal rendering of counters

The source allocates ids with template literals `` `splat-${this._layerCounter++}` ``
and `` `model-${this._modelCounter++}` ``; `${n}` renders the counter in
decimal.  `decRepr` models that rendering with a fuel-based structural
recursion so that the kernel can evaluate it, and is proved injective. -/

/-- Little-endian decimal digits of `n`; `fuel` bounds the recursion depth
(`fuel ≥ n` suffices). `decDigitsAux fuel 0 = []`. -/
def decDigitsAux : Nat → Nat → List Nat
  | 0, _ => []
  | fuel + 1, n => if n = 0 then [] else n % 10 :: decDigitsAux fuel (n / 10)

/-- Digit list used for rendering `n`: little-endian, `[0]` for zero. -/
def decDigitsOf (n : Nat) : List Nat :=
  if n = 0 then [0] else decDigitsAux n n

/-- Value of a little-endian digit list. -/
def decVal : List Nat → Nat
  | [] => 0
  | d :: ds => d + 10 * decVal ds

/-- Decimal rendering of a natural number, as produced by `${n}`. -/
def decRepr (n : Nat) : String :=
  String.mk ((decDigitsOf n).reverse.map Nat.digitChar)

theorem decVal_decDigitsAux (fuel n : Nat) (h : n ≤ fuel) :
    decVal (decDigitsAux fuel n) = n := by
  induction fuel generalizing n with
  | zero => interval_cases n; simp [decDigitsAux, decVal]
  | succ fuel ih =>
    by_cases hn : n = 0
    · simp [decDigitsAux, hn, decVal]
    · have hdiv : n / 10 ≤ fuel := by
        have hlt : n / 10 < n := Nat.div_lt_self (Nat.pos_of_ne_zero hn) (by norm_num)
        omega
      simp only [decDigitsAux, hn, if_false, decVal]
      rw [ih _ hdiv]
      omega

theorem decVal_decDigitsOf (n : Nat) : decVal (decDigitsOf n) = n := by
  by_cases hn : n = 0
  · simp [decDigitsOf, hn, decVal]
  · simp only [decDigitsOf, hn, if_false]
    exact decVal_decDigitsAux n n le_rfl

theorem decDigitsAux_lt_ten (fuel n : Nat) :
    ∀ d ∈ decDigitsAux fuel n, d < 10 := by
  induction fuel generalizing n with
  | zero => simp [decDigitsAux]
  | succ fuel ih =>
    intro d hd
    by_cases hn : n = 0
    · simp [decDigitsAux, hn] at hd
    · simp only [decDigitsAux, hn, if_false, List.mem_cons] at hd
      rcases hd with rfl | hd
      · exact Nat.mod_lt _ (by norm_num)
      · exact ih _ d hd

theorem decDigitsOf_lt_ten (n : Nat) : ∀ d ∈ decDigitsOf n, d < 10 := by
  by_cases hn : n = 0
  · simp [decDigitsOf, hn]
  · simp only [decDigitsOf, hn, if_false]
    exact decDigitsAux_lt_ten n n

theorem digitChar_inj_lt_ten {a b : Nat} (ha : a < 10) (hb : b < 10)
    (h : Nat.digitChar a = Nat.digitChar b) : a = b := by
  have hfin : ∀ x : Fin 10, ∀ y : Fin 10,
      Nat.digitChar x.val = Nat.digitChar y.val → x = y := by decide
  have heq := hfin ⟨a, ha⟩ ⟨b, hb⟩ h
  simpa using congrArg Fin.val heq

theorem decRepr_inj {m n : Nat} (h : decRepr m = decRepr n) : m = n := by
  have hdata : (decDigitsOf m).reverse.map Nat.digitChar
      = (decDigitsOf n).reverse.map Nat.digitChar := by
    have := congrArg String.data h
    simpa [decRepr] using this
  have hdig : decDigitsOf m = decDigitsOf n := by
    have hrev : (decDigitsOf m).reverse = (decDigitsOf n).reverse := by
      have hm := decDigitsOf_lt_ten m
      have hn := decDigitsOf_lt_ten n
      revert hdata
      generalize (decDigitsOf m) = dm at hm
      generalize (decDigitsOf n) = dn at hn
      have hm' : ∀ d ∈ dm.reverse, d < 10 := by
        intro d hd; exact hm d (List.mem_reverse.mp hd)
      have hn' : ∀ d ∈ dn.reverse, d < 10 := by
        intro d hd; exact hn d (List.mem_reverse.mp hd)
      revert hn'
      generalize dm.reverse = rm at hm'
      generalize dn.reverse = rn
      intro hn' hdata
      induction rm generalizing rn with
      | nil => cases rn <;> simp_all
      | cons a as ih =>
        cases rn with
        | nil => simp_all
        | cons b bs =>
          simp only [List.map_cons, List.cons.injEq] at hdata
          have hab : a = b := digitChar_inj_lt_ten
            (hm' a (by simp)) (hn' b (by simp)) hdata.1
          have := ih (fun d hd => hm' d (List.mem_cons_of_mem _ hd)) bs
            (fun d hd => hn' d (List.mem_cons_of_mem _ hd)) hdata.2
          simp [hab, this]
    have := congrArg List.reverse hrev
    simpa using this
  have := congrArg decVal hdig
  simpa [decVal_decDigitsOf] using this

/-- Splat layer id: the source's `` `splat-${n}` ``. -/
def splatIdStr (n : Nat) : String := "splat-" ++ decRepr n

/-- Model layer id: the source's `` `model-${n}` ``. -/
def modelIdStr (n : Nat) : String := "model-" ++ decRepr n

theorem string_append_left_cancel {s a b : String} (h : s ++ a = s ++ b) :
    a = b := by
  have hd : s.data ++ a.data = s.data ++ b.data := by
    have := congrArg String.data h
    simpa [String.data_append] using this
  have hab := List.append_cancel_left hd
  cases a; cases b; exact congrArg String.mk hab

theorem splatIdStr_inj {m n : Nat} (h : splatIdStr m = splatIdStr n) :
    m = n :=
  decRepr_inj (string_append_left_cancel h)

theorem modelIdStr_inj {m n : Nat} (h : modelIdStr m = modelIdStr n) :
    m = n :=
  decRepr_inj (string_append_left_cancel h)

/-! ### URL pathname and file extension

`_getFileExtension` (source lines 535-539) computes
`new URL(url, 'http://dummy').pathname` and then
`pathname.split('.').pop()?.toLowerCase() || ''`.  The `URL` class is a
platform collaborator; `urlPathnameChars` models the WHATWG pathname for
the URL shapes the control consumes: the fragment (from the first `#`) and
the query string (from the first `?`) are dropped; for an absolute URL
(containing `://`) the scheme and host up to the first following `/` are
dropped; a relative URL is resolved against the dummy base, yielding
`'/' ++ url`.  Path case is preserved (WHATWG lowercases only scheme and
host). -/

/-- Characters of `s` strictly before the first occurrence of `c`
(all of `s` when `c` does not occur). -/
def takeUntilChar : List Char → Char → List Char
  | [], _ => []
  | x :: xs, c => if x = c then [] else x :: takeUntilChar xs c

/-- The characters after the first `://`, when present. -/
def afterSchemeSep : List Char → Option (List Char)
  | ':' :: '/' :: '/' :: rest => some rest
  | _ :: xs => afterSchemeSep xs
  | [] => none

/-- Drops the authority part: everything up to (but not including) the
first `/`. Returns `[]` when there is no `/`. -/
def dropUntilSlash : List Char → List Char
  | [] => []
  | x :: xs => if x = '/' then x :: xs else dropUntilSlash xs

/-- Model of `new URL(url, 'http://dummy').pathname` as a char list. -/
def urlPathnameChars (url : List Char) : List Char :=
  let s1 := takeUntilChar url '#'
  let s2 := takeUntilChar s1 '?'
  match afterSchemeSep s2 with
  | some rest => dropUntilSlash rest
  | none => '/' :: s2

/-- Model of `pathname.split(sep).pop()`: the (possibly empty) suffix after
the last occurrence of `sep`, or the whole list when `sep` is absent. -/
def lastSegAfter (s : List Char) (sep : Char) : List Char :=
  (s.reverse.takeWhile (fun c => c ≠ sep)).reverse

/-- JS `toLowerCase` restricted to ASCII, as applied to extensions. -/
def lowerChar (c : Char) : Char :=
  if 'A' ≤ c ∧ c ≤ 'Z' then Char.ofNat (c.toNat + 32) else c

/-- `GaussianSplatControl._getFileExtension` (source lines 535-539). -/
def getFileExtension (url : String) : String :=
  String.mk ((lastSegAfter (urlPathnameChars url.data) '.').map lowerChar)

/-- `GaussianSplatControl._getFilename` (source lines 1227-1234):
`new URL(url).pathname` (which throws for scheme-less input, caught below)
split on `/`, last segment, falling back to `url` when empty. -/
def getFilename (url : String) : String :=
  let s2 := takeUntilChar (takeUntilChar url.data '#') '?'
  let seg := match afterSchemeSep s2 with
    | some rest => lastSegAfter (dropUntilSlash rest) '/'
    | none => lastSegAfter url.data '/'
  if seg.isEmpty then url else String.mk seg

/-! ### Insertion-ordered maps (JS `Map`)

`_splatLayers` and `_modelLayers` are JS `Map`s: `set` updates an existing
key in place or appends a fresh binding at the end; `delete` removes the
binding; iteration follows insertion order. -/

/-- JS `Map.prototype.get`: the value bound to `k`, if any. -/
def mapGet {α : Type} (m : List (String × α)) (k : String) : Option α :=
  match m with
  | [] => none
  | (k', v) :: rest => if k' = k then some v else mapGet rest k

/-- JS `Map.prototype.set` on an insertion-ordered association list. -/
def mapSet {α : Type} (m : List (String × α)) (k : String) (v : α) :
    List (String × α) :=
  if (mapGet m k).isSome then
    m.map (fun p => if p.1 = k then (k, v) else p)
  else m ++ [(k, v)]

/-- JS `Map.prototype.delete`. -/
def mapDelete {α : Type} (m : List (String × α)) (k : String) :
    List (String × α) :=
  m.filter (fun p => p.1 ≠ k)

theorem mapGet_mapSet_self {α : Type} (m : List (String × α)) (k : String)
    (v : α) : mapGet (mapSet m k v) k = some v := by
  unfold mapSet
  by_cases h : (mapGet m k).isSome
  · simp only [h, if_true]
    induction m with
    | nil => simp [mapGet] at h
    | cons p rest ih =>
      obtain ⟨k', v'⟩ := p
      by_cases hp : k' = k
      · subst hp
        rw [List.map_cons, if_pos rfl]
        simp [mapGet]
      · have hrest : (mapGet rest k).isSome := by
          simpa [mapGet, hp] using h
        simp only [List.map_cons, if_neg hp]
        simpa [mapGet, hp] using ih hrest
  · simp only [h, if_false]
    induction m with
    | nil => simp [mapGet]
    | cons p rest ih =>
      obtain ⟨k', v'⟩ := p
      by_cases hp : k' = k
      · simp [mapGet, hp] at h
      · have hrest : ¬(mapGet rest k).isSome := by
          simpa [mapGet, hp] using h
        simp only [List.cons_append]
        simpa [mapGet, hp] using ih hrest

theorem length_mapSet_of_not_mem {α : Type} (m : List (String × α))
    (k : String) (v : α) (h : mapGet m k = none) :
    (mapSet m k v).length = m.length + 1 := by
  unfold mapSet
  simp [h]

theorem map_fst_mapSet {α : Type} (m : List (String × α)) (k : String)
    (v : α) :
    (mapSet m k v).map Prod.fst
      = if (mapGet m k).isSome then m.map Prod.fst
        else m.map Prod.fst ++ [k] := by
  unfold mapSet
  by_cases h : (mapGet m k).isSome
  · simp only [h, if_true]
    rw [List.map_map]
    have hfun : (Prod.fst ∘ fun p : String × α =>
        if p.1 = k then (k, v) else p) = Prod.fst := by
      funext p
      by_cases hp : p.1 = k
      · simp [Function.comp, hp]
      · simp [Function.comp, hp]
    rw [hfun]
  · simp [h]

/-! ### Controller data model

Numbers handled by the controller (coordinates, rotation degrees, scale)
are only stored, compared and passed through — never computed with — so
they are embedded as `Int`.  (`THREE.MathUtils.degToRad` is applied to the
rotation only at the `createMercatorRTCGroup` collaborator boundary; the
opaque RTC group handle is embedded as the record of creation parameters,
with the rotation kept in degrees.) -/

/-- A rotation triple `[x, y, z]` in degrees. -/
structure Rot3 where
  x : Int
  y : Int
  z : Int
  deriving DecidableEq, Repr

/-- The opaque handle returned by `MTP.Creator.createMercatorRTCGroup`,
embedded as its creation parameters. -/
structure RtcGroup where
  lng : Int
  lat : Int
  alt : Int
  rotDeg : Rot3
  scale : Int
  deriving DecidableEq, Repr

/-- A registry record (`SplatLayerInfo` / `ModelLayerInfo`, source lines
290-314; the decoded mesh / scene node is opaque and omitted). -/
structure LayerRec where
  id : String
  url : String
  rtcGroup : RtcGroup
  longitude : Int
  latitude : Int
  altitude : Int
  deriving DecidableEq, Repr

/-- `GaussianSplatControlState` (source lines 245-259), with the rotation
triple by value; reference semantics of the state object are modelled
separately below. -/
structure CtrlState where
  collapsed : Bool
  url : String
  loading : Bool
  error : Option String
  status : Option String
  hasLayer : Bool
  layerCount : Nat
  opacity : Int
  rotation : Rot3
  scale : Int
  longitude : Int
  latitude : Int
  altitude : Int
  deriving DecidableEq, Repr

/-- The configuration options the modelled operations read
(`GaussianSplatControlOptions` merged with `DEFAULT_OPTIONS`). -/
structure CtrlOptions where
  defaultModelRotation : Rot3
  flyTo : Bool
  flyToZoom : Int
  deriving DecidableEq, Repr

/-- `GaussianSplatEvent` (source lines 264-273). -/
inductive EvKind where
  | expand
  | collapse
  | show
  | hide
  | splatload
  | splatremove
  | modelload
  | modelremove
  | error
  deriving DecidableEq, Repr

/-- The extra fields of an emitted event (`_emit`'s `extra` argument);
the `state` field is treated in the reference-semantics model below. -/
structure Ev where
  type : EvKind
  url : Option String
  error : Option String
  splatId : Option String
  modelId : Option String
  deriving DecidableEq, Repr

/-- Event record constructor. -/
def mkEv (k : EvKind) (u e sid mid : Option String) : Ev :=
  ⟨k, u, e, sid, mid⟩

/-- The controller (`GaussianSplatControl` fields relevant to the
registry, state and lifecycle; DOM and THREE handles are opaque, with
`hasMap` / `hasScene` recording whether `_map` / `_mapScene` are set). -/
structure Ctrl where
  hasMap : Bool
  hasScene : Bool
  opts : CtrlOptions
  state : CtrlState
  splatLayers : List (String × LayerRec)
  modelLayers : List (String × LayerRec)
  layerCounter : Nat
  modelCounter : Nat
  deriving DecidableEq, Repr

/-- The optional per-call placement argument of `load` / `loadSplat` /
`loadModel`. -/
structure LoadOptions where
  longitude : Option Int
  latitude : Option Int
  altitude : Option Int
  rotation : Option Rot3
  scale : Option Int
  deriving DecidableEq, Repr

/-- `LoadOptions` with no field set. -/
def noOpts : LoadOptions := ⟨none, none, none, none, none⟩

/-- `GaussianSplatControl.expand` (source lines 446-452). -/
def Ctrl.expand (c : Ctrl) : Ctrl × List Ev :=
  if c.state.collapsed then
    ({ c with state := { c.state with collapsed := false } },
     [mkEv .expand none none none none])
  else (c, [])

/-- `GaussianSplatControl.collapse` (source lines 457-463). -/
def Ctrl.collapse (c : Ctrl) : Ctrl × List Ev :=
  if ¬ c.state.collapsed then
    ({ c with state := { c.state with collapsed := true } },
     [mkEv .collapse none none none none])
  else (c, [])

/-- `GaussianSplatControl.toggle` (source lines 468-471). -/
def Ctrl.toggle (c : Ctrl) : Ctrl × List Ev :=
  if c.state.collapsed then c.expand else c.collapse

/-- `GaussianSplatControl.getState` (source lines 476-478), value view:
the copied field contents. -/
def Ctrl.getState (c : Ctrl) : CtrlState := c.state

/-- `GaussianSplatControl.getSplatIds` (source lines 807-809). -/
def Ctrl.getSplatIds (c : Ctrl) : List String :=
  c.splatLayers.map Prod.fst

/-- The projection returned by `getSplatInfo`. -/
structure SplatInfo where
  url : String
  longitude : Int
  latitude : Int
  altitude : Int
  deriving DecidableEq, Repr

/-- `GaussianSplatControl.getSplatInfo` (source lines 814-823). -/
def Ctrl.getSplatInfo (c : Ctrl) (layerId : String) : Option SplatInfo :=
  (mapGet c.splatLayers layerId).map
    (fun l => ⟨l.url, l.longitude, l.latitude, l.altitude⟩)

/-! ### Load pipelines

`loadSplat` / `loadModel` are async; the embedding returns
`Ctrl × List Ev × Except String String`: the state after the call settles,
the events emitted, and `.ok layerId` on resolution or `.error msg` on
rejection.  `centerLng` / `centerLat` stand for `this._map.getCenter()`,
and `decodeFails` is the outcome of the single modelled failure point
(splat: RTC-group/mesh construction and scene attach, source lines
574-600; model: the awaited `loadAsync` decode, source line 703): `none`
for success, `some msg` when that step throws `msg`.  JS `||` treats `0`
as falsy, hence the explicit zero tests in the fallbacks. -/

/-- `GaussianSplatControl.loadSplat` (source lines 544-639). -/
def Ctrl.loadSplat (c : Ctrl) (url : String) (o : LoadOptions)
    (centerLng centerLat : Int) (decodeFails : Option String) :
    Ctrl × List Ev × Except String String :=
  if ¬ (c.hasMap ∧ c.hasScene) then (c, [], .error "Map not initialized")
  else
    let lng := o.longitude.getD
      (if c.state.longitude = 0 then centerLng else c.state.longitude)
    let lat := o.latitude.getD
      (if c.state.latitude = 0 then centerLat else c.state.latitude)
    let alt := o.altitude.getD
      (if c.state.altitude = 0 then 0 else c.state.altitude)
    let rotation := o.rotation.getD c.state.rotation
    let scale := o.scale.getD c.state.scale
    let st1 := { c.state with
      url := url, loading := true, error := none,
      status := some "Loading splat...",
      longitude := lng, latitude := lat, altitude := alt }
    match decodeFails with
    | some msg =>
      let emsg := "Failed to load: " ++ msg
      ({ c with state := { st1 with loading := false, error := some emsg } },
       [mkEv .error none (some emsg) none none], .error msg)
    | none =>
      let rtcGroup : RtcGroup := ⟨lng, lat, alt, rotation, scale⟩
      let layerId := splatIdStr c.layerCounter
      let info : LayerRec := ⟨layerId, url, rtcGroup, lng, lat, alt⟩
      let splats := mapSet c.splatLayers layerId info
      let st2 := { st1 with
        hasLayer := true,
        layerCount := splats.length + c.modelLayers.length,
        loading := false,
        status := some ("Loaded: " ++ getFilename url) }
      ({ c with
          state := st2,
          splatLayers := splats,
          layerCounter := c.layerCounter + 1 },
       [mkEv .splatload (some url) none (some layerId) none], .ok layerId)

/-- `GaussianSplatControl.loadModel` (source lines 652-752). -/
def Ctrl.loadModel (c : Ctrl) (url : String) (o : LoadOptions)
    (centerLng centerLat : Int) (decodeFails : Option String) :
    Ctrl × List Ev × Except String String :=
  if ¬ (c.hasMap ∧ c.hasScene) then (c, [], .error "Map not initialized")
  else
    let lng := o.longitude.getD
      (if c.state.longitude = 0 then centerLng else c.state.longitude)
    let lat := o.latitude.getD
      (if c.state.latitude = 0 then centerLat else c.state.latitude)
    let alt := o.altitude.getD
      (if c.state.altitude = 0 then 0 else c.state.altitude)
    let rotation := o.rotation.getD c.opts.defaultModelRotation
    let scale := o.scale.getD c.state.scale
    let st1 := { c.state with
      url := url, loading := true, error := none,
      status := some "Loading model...",
      longitude := lng, latitude := lat, altitude := alt }
    match decodeFails with
    | some msg =>
      let emsg := "Failed to load: " ++ msg
      ({ c with state := { st1 with loading := false, error := some emsg } },
       [mkEv .error none (some emsg) none none], .error msg)
    | none =>
      let rtcGroup : RtcGroup := ⟨lng, lat, alt, rotation, scale⟩
      let layerId := modelIdStr c.modelCounter
      let info : LayerRec := ⟨layerId, url, rtcGroup, lng, lat, alt⟩
      let models := mapSet c.modelLayers layerId info
      let st2 := { st1 with
        hasLayer := true,
        layerCount := c.splatLayers.length + models.length,
        loading := false,
        status := some ("Loaded: " ++ getFilename url) }
      ({ c with
          state := st2,
          modelLayers := models,
          modelCounter := c.modelCounter + 1 },
       [mkEv .modelload (some url) none none (some layerId)], .ok layerId)

/-- `GaussianSplatControl.load` (source lines 510-530): extension routing,
substituting the model-specific default rotation when the caller gave
none. -/
def Ctrl.load (c : Ctrl) (url : String) (o : LoadOptions)
    (centerLng centerLat : Int) (decodeFails : Option String) :
    Ctrl × List Ev × Except String String :=
  let extension := getFileExtension url
  if extension = "gltf" ∨ extension = "glb" then
    let modelOptions :=
      match o.rotation with
      | none => { o with rotation := some c.opts.defaultModelRotation }
      | some _ => o
    c.loadModel url modelOptions centerLng centerLat decodeFails
  else c.loadSplat url o centerLng centerLat decodeFails

/-! ### Removal -/

/-- `GaussianSplatControl.removeSplat` (source lines 783-795). -/
def Ctrl.removeSplat (c : Ctrl) (layerId : String) : Ctrl × List Ev :=
  match mapGet c.splatLayers layerId with
  | none => (c, [])
  | some _ =>
    if ¬ c.hasScene then (c, [])
    else
      let splats := mapDelete c.splatLayers layerId
      let st := { c.state with
        hasLayer := !splats.isEmpty || !c.modelLayers.isEmpty,
        layerCount := splats.length + c.modelLayers.length,
        status := none }
      ({ c with state := st, splatLayers := splats },
       [mkEv .splatremove none none (some layerId) none])

/-- `GaussianSplatControl.removeModel` (source lines 757-769). -/
def Ctrl.removeModel (c : Ctrl) (layerId : String) : Ctrl × List Ev :=
  match mapGet c.modelLayers layerId with
  | none => (c, [])
  | some _ =>
    if ¬ c.hasScene then (c, [])
    else
      let models := mapDelete c.modelLayers layerId
      let st := { c.state with
        hasLayer := !c.splatLayers.isEmpty || !models.isEmpty,
        layerCount := c.splatLayers.length + models.length,
        status := none }
      ({ c with state := st, modelLayers := models },
       [mkEv .modelremove none none none (some layerId)])

/-- Folds `removeSplat` over a list of ids, concatenating events. -/
def Ctrl.removeSplatEach (c : Ctrl) : List String → Ctrl × List Ev
  | [] => (c, [])
  | layerId :: rest =>
    let (c1, e1) := c.removeSplat layerId
    let (c2, e2) := c1.removeSplatEach rest
    (c2, e1 ++ e2)

/-- Folds `removeModel` over a list of ids, concatenating events. -/
def Ctrl.removeModelEach (c : Ctrl) : List String → Ctrl × List Ev
  | [] => (c, [])
  | layerId :: rest =>
    let (c1, e1) := c.removeModel layerId
    let (c2, e2) := c1.removeModelEach rest
    (c2, e1 ++ e2)

/-- `GaussianSplatControl.removeAllModels` (source lines 774-778):
removes each current model id in insertion order. -/
def Ctrl.removeAllModels (c : Ctrl) : Ctrl × List Ev :=
  c.removeModelEach (c.modelLayers.map Prod.fst)

/-- `GaussianSplatControl._removeAllLayers` (source lines 825-832):
removes every splat layer, then every model layer. -/
def Ctrl.removeAllLayers (c : Ctrl) : Ctrl × List Ev :=
  let (c1, e1) := c.removeSplatEach (c.splatLayers.map Prod.fst)
  let (c2, e2) := c1.removeModelEach (c1.modelLayers.map Prod.fst)
  (c2, e1 ++ e2)

/-- `GaussianSplatControl.removeAllSplats` (source lines 800-802): the
source delegates to `_removeAllLayers`. -/
def Ctrl.removeAllSplats (c : Ctrl) : Ctrl × List Ev :=
  c.removeAllLayers

/-! ### Event bus

`_eventHandlers` (source line 370) is a
`Map<GaussianSplatEvent, Set<GaussianSplatEventHandler>>`.  A JS `Set`
iterates in insertion order, `add` is a no-op on a present element and
appends otherwise, `delete` removes the element.  Handler functions are
identified by `Nat` tokens (JS function identity). -/

/-- Handler identity. -/
abbrev HandlerId := Nat

/-- JS `Set.prototype.add` on an insertion-ordered duplicate-free list. -/
def setAdd (s : List HandlerId) (h : HandlerId) : List HandlerId :=
  if h ∈ s then s else s ++ [h]

/-- JS `Set.prototype.delete`. -/
def setDelete (s : List HandlerId) (h : HandlerId) : List HandlerId :=
  s.filter (fun x => x ≠ h)

/-- The `_eventHandlers` map. -/
structure EventBus where
  handlers : List (EvKind × List HandlerId)
  deriving DecidableEq, Repr

/-- The bus with no subscriptions (constructor state). -/
def EventBus.empty : EventBus := ⟨[]⟩

/-- Lookup in the kind-keyed association list. -/
def busGetAux : List (EvKind × List HandlerId) → EvKind →
    Option (List HandlerId)
  | [], _ => none
  | (k', s) :: rest, k => if k' = k then some s else busGetAux rest k

/-- The handler set registered for `k` (JS `Map.get`, keyed by event
kind). -/
def EventBus.get (b : EventBus) (k : EvKind) : Option (List HandlerId) :=
  busGetAux b.handlers k

/-- `GaussianSplatControl.on` (source lines 492-497): create the kind's
set when missing, then `add`. -/
def EventBus.on (b : EventBus) (k : EvKind) (h : HandlerId) : EventBus :=
  if (b.get k).isSome then
    ⟨b.handlers.map (fun p => if p.1 = k then (p.1, setAdd p.2 h) else p)⟩
  else ⟨b.handlers ++ [(k, setAdd [] h)]⟩

/-- `GaussianSplatControl.off` (source lines 502-504):
`get(event)?.delete(handler)`; a no-op when the kind has no set. -/
def EventBus.off (b : EventBus) (k : EvKind) (h : HandlerId) : EventBus :=
  ⟨b.handlers.map (fun p => if p.1 = k then (p.1, setDelete p.2 h) else p)⟩

/-! ### Reference semantics: heap of state objects and rotation arrays

`getState` returns `{ ...this._state }` (a shallow copy: the nested
`rotation` array is copied by reference) and `_emit` builds its payload
with `state: this._state` (no copy at all).  Both are embedded against an
explicit heap: `rotObjs` holds the rotation arrays, `stateObjs` the state
objects, and a state object stores the address of its rotation array. -/

/-- A state object as stored on the heap: scalar fields by value, the
rotation array by address. -/
structure StateObj where
  collapsed : Bool
  url : String
  loading : Bool
  error : Option String
  status : Option String
  hasLayer : Bool
  layerCount : Nat
  opacity : Int
  rotationRef : Nat
  scale : Int
  longitude : Int
  latitude : Int
  altitude : Int
  deriving DecidableEq, Repr

/-- Fallback contents for an invalid state-object address. -/
def defaultStateObj : StateObj :=
  ⟨true, "", false, none, none, false, 0, 1, 0, 1, 0, 0, 0⟩

/-- The explicit heap. -/
structure Heap where
  stateObjs : List StateObj
  rotObjs : List Rot3
  deriving DecidableEq, Repr

/-- Reads the state object at address `a`. -/
def Heap.stateAt (h : Heap) (a : Nat) : StateObj :=
  h.stateObjs.getD a defaultStateObj

/-- Reads the rotation array at address `a`. -/
def Heap.rotAt (h : Heap) (a : Nat) : Rot3 :=
  h.rotObjs.getD a ⟨0, 0, 0⟩

/-- Overwrites the state object at address `a` (mutation of a state
object's own fields). -/
def Heap.setStateObj (h : Heap) (a : Nat) (f : StateObj) : Heap :=
  ⟨h.stateObjs.set a f, h.rotObjs⟩

/-- Overwrites the rotation array at address `a` (mutation of a nested
rotation triple such as `state.rotation[0] = v`). -/
def Heap.setRotObj (h : Heap) (a : Nat) (r : Rot3) : Heap :=
  ⟨h.stateObjs, h.rotObjs.set a r⟩

/-- Allocates a fresh state object, returning its address. -/
def Heap.allocStateObj (h : Heap) (f : StateObj) : Heap × Nat :=
  (⟨h.stateObjs ++ [f], h.rotObjs⟩, h.stateObjs.length)

/-- The controller as seen by the reference-semantics model: its `_state`
field is an address into the heap. -/
structure RefCtrl where
  heap : Heap
  stateAddr : Nat
  deriving DecidableEq, Repr

/-- `GaussianSplatControl.getState` (source lines 476-478) under
reference semantics: `{ ...this._state }` allocates a fresh object whose
fields — including `rotationRef` — are copied from the current state
object, and returns its address. -/
def RefCtrl.getState (c : RefCtrl) : RefCtrl × Nat :=
  let fields := c.heap.stateAt c.stateAddr
  let (h2, addr) := c.heap.allocStateObj fields
  ({ c with heap := h2 }, addr)

/-- The payload `_emit` builds (source line 840):
`{ type: event, state: this._state, ...extra }` — `state` is the address
of the controller's live state object. -/
structure EmitPayload where
  type : EvKind
  stateAddr : Nat
  url : Option String
  error : Option String
  splatId : Option String
  modelId : Option String
  deriving DecidableEq, Repr

/-- `GaussianSplatControl._emit` (source lines 834-844): looks up the
kind's handler set; absent means no calls; otherwise one payload is built
and every handler is called with it synchronously, in set (registration)
order.  The result is the call sequence performed before `_emit`
returns. -/
def emitDispatch (b : EventBus) (stateAddr : Nat) (k : EvKind)
    (u e sid mid : Option String) : List (HandlerId × EmitPayload) :=
  match b.get k with
  | none => []
  | some hs =>
    let payload : EmitPayload := ⟨k, stateAddr, u, e, sid, mid⟩
    hs.map (fun h => (h, payload))

/-! ### Helper lemmas -/

theorem mapGet_eq_none_of_not_mem {α : Type} {m : List (String × α)}
    {k : String} (h : k ∉ m.map Prod.fst) : mapGet m k = none := by
  induction m with
  | nil => rfl
  | cons p rest ih =>
    obtain ⟨k', v'⟩ := p
    simp only [List.map_cons, List.mem_cons] at h
    push_neg at h
    have hne : k' ≠ k := fun hk => h.1 hk.symm
    simpa [mapGet, hne] using ih h.2

theorem mapSet_eq_append_of_get_none {α : Type} {m : List (String × α)}
    {k : String} (v : α) (h : mapGet m k = none) :
    mapSet m k v = m ++ [(k, v)] := by
  unfold mapSet
  simp [h]

theorem map_fst_mapDelete_sublist {α : Type} (m : List (String × α))
    (k : String) : ((mapDelete m k).map Prod.fst).Sublist (m.map Prod.fst) :=
  (List.filter_sublist m).map Prod.fst

/-! ### Claim C7

For an id absent from the corresponding registry, or whenever the scene
is not initialized, `removeSplat` and `removeModel` leave the controller
completely unchanged (in particular `layerCount`, `hasLayer` and every
registry entry) and emit no event. -/

/-- C7: `removeSplat(id)` / `removeModel(id)` on an unknown id, or with
the scene uninitialized, never raise, change nothing (the controller —
including `layerCount`, `hasLayer` and both registries — is returned
as-is) and emit no event. -/
theorem remove_unknown_or_uninitialized_is_noop (c : Ctrl) (layerId : String) :
    (mapGet c.splatLayers layerId = none → c.removeSplat layerId = (c, []))
    ∧ (mapGet c.modelLayers layerId = none → c.removeModel layerId = (c, []))
    ∧ (c.hasScene = false → c.removeSplat layerId = (c, []))
    ∧ (c.hasScene = false → c.removeModel layerId = (c, [])) := by
  refine ⟨fun h => ?_, fun h => ?_, fun h => ?_, fun h => ?_⟩
  · simp [Ctrl.removeSplat, h]
  · simp [Ctrl.removeModel, h]
  · cases hm : mapGet c.splatLayers layerId <;> simp [Ctrl.removeSplat, hm, h]
  · cases hm : mapGet c.modelLayers layerId <;> simp [Ctrl.removeModel, hm, h]

/-- Witness for C7 at a concrete controller. -/
def c7Ctrl : Ctrl :=
  ⟨true, false, ⟨⟨90, 0, 0⟩, true, 18⟩,
   ⟨true, "", false, none, none, false, 0, 1, ⟨-90, 90, 0⟩, 1, 0, 0, 0⟩,
   [], [], 0, 0⟩

theorem remove_unknown_or_uninitialized_is_noop_witness :
    (mapGet c7Ctrl.splatLayers "splat-0" = none →
      c7Ctrl.removeSplat "splat-0" = (c7Ctrl, []))
    ∧ (mapGet c7Ctrl.modelLayers "splat-0" = none →
      c7Ctrl.removeModel "splat-0" = (c7Ctrl, []))
    ∧ (c7Ctrl.hasScene = false → c7Ctrl.removeSplat "splat-0" = (c7Ctrl, []))
    ∧ (c7Ctrl.hasScene = false → c7Ctrl.removeModel "splat-0" = (c7Ctrl, [])) :=
  remove_unknown_or_uninitialized_is_noop c7Ctrl "splat-0"

/-! ### Claim C8

`expand()` / `collapse()` idempotence and event counts.  The claim also
asserts that from EVERY starting state `expand(); expand()` emits exactly
one `expand` event — false when the panel starts expanded: both calls hit
the `if (this._state.collapsed)` guard and emit nothing. -/

/-- A mounted controller whose panel is already expanded. -/
def c8ExpandedCtrl : Ctrl :=
  ⟨true, true, ⟨⟨90, 0, 0⟩, true, 18⟩,
   ⟨false, "", false, none, none, false, 0, 1, ⟨-90, 90, 0⟩, 1, 0, 0, 0⟩,
   [], [], 0, 0⟩

/-- C8 counterexample: on a controller whose panel is already expanded,
`expand()` followed by `expand()` emits zero events, not exactly one
`expand` event as the claim asserts for every starting state. -/
theorem expand_twice_from_expanded_emits_nothing :
    ((c8ExpandedCtrl.expand).2
      ++ ((c8ExpandedCtrl.expand).1.expand).2 = [])
    ∧ ¬ (((c8ExpandedCtrl.expand).2
      ++ ((c8ExpandedCtrl.expand).1.expand).2).length = 1) := by
  decide

/-- C8 (amended): `expand()` on an already-expanded panel and
`collapse()` on an already-collapsed panel are no-ops emitting no event;
from a collapsed start, `expand(); expand()` emits exactly one `expand`
event, while from an expanded start it emits none; and each successful
transition emits exactly one matching `expand` / `collapse` event. -/
theorem expand_collapse_event_discipline (c : Ctrl) :
    (c.state.collapsed = false → c.expand = (c, []))
    ∧ (c.state.collapsed = true → c.collapse = (c, []))
    ∧ (c.state.collapsed = true →
        (c.expand).2 ++ ((c.expand).1.expand).2
          = [mkEv .expand none none none none])
    ∧ (c.state.collapsed = false →
        (c.expand).2 ++ ((c.expand).1.expand).2 = [])
    ∧ (c.state.collapsed = true →
        c.expand = ({ c with state := { c.state with collapsed := false } },
          [mkEv .expand none none none none]))
    ∧ (c.state.collapsed = false →
        c.collapse = ({ c with state := { c.state with collapsed := true } },
          [mkEv .collapse none none none none])) := by
  refine ⟨fun h => ?_, fun h => ?_, fun h => ?_, fun h => ?_, fun h => ?_,
    fun h => ?_⟩
  · simp [Ctrl.expand, h]
  · simp [Ctrl.collapse, h]
  · simp [Ctrl.expand, h]
  · simp [Ctrl.expand, h]
  · simp [Ctrl.expand, h]
  · simp [Ctrl.collapse, h]

/-- A mounted controller whose panel is collapsed (constructor default). -/
def c8CollapsedCtrl : Ctrl :=
  ⟨true, true, ⟨⟨90, 0, 0⟩, true, 18⟩,
   ⟨true, "", false, none, none, false, 0, 1, ⟨-90, 90, 0⟩, 1, 0, 0, 0⟩,
   [], [], 0, 0⟩

theorem expand_collapse_event_discipline_witness :
    c8CollapsedCtrl.state.collapsed = true
    ∧ ((c8CollapsedCtrl.expand).2 ++ ((c8CollapsedCtrl.expand).1.expand).2
        = [mkEv .expand none none none none]) :=
  ⟨by decide, ((expand_collapse_event_discipline c8CollapsedCtrl).2.2.1
    (by decide))⟩

/-! ### Claim C2

When the decode/attach step of `loadSplat` or `loadModel` throws, the call
rejects with the thrown failure, emits exactly one `error` event carrying
the formatted message, leaves `state.error` set to that message, and adds
no registry entry of either kind. -/

/-- C2: a failing `loadSplat` / `loadModel` (decode/attach step throwing
`msg` on an initialized controller) rejects with `msg`, emits exactly the
one `error` event carrying `"Failed to load: " ++ msg`, leaves
`getState().error` equal to that message, and leaves both registries —
hence `getSplatIds()` and the model-id listing — unchanged. -/
theorem load_failure_rejects_and_emits_error (c : Ctrl) (url msg : String)
    (o : LoadOptions) (centerLng centerLat : Int)
    (hm : c.hasMap = true) (hs : c.hasScene = true) :
    ((c.loadSplat url o centerLng centerLat (some msg)).2.2 = .error msg
      ∧ (c.loadSplat url o centerLng centerLat (some msg)).2.1
        = [mkEv .error none (some ("Failed to load: " ++ msg)) none none]
      ∧ (c.loadSplat url o centerLng centerLat (some msg)).1.getState.error
        = some ("Failed to load: " ++ msg)
      ∧ (c.loadSplat url o centerLng centerLat (some msg)).1.splatLayers
        = c.splatLayers
      ∧ (c.loadSplat url o centerLng centerLat (some msg)).1.modelLayers
        = c.modelLayers
      ∧ (c.loadSplat url o centerLng centerLat (some msg)).1.getSplatIds
        = c.getSplatIds)
    ∧ ((c.loadModel url o centerLng centerLat (some msg)).2.2 = .error msg
      ∧ (c.loadModel url o centerLng centerLat (some msg)).2.1
        = [mkEv .error none (some ("Failed to load: " ++ msg)) none none]
      ∧ (c.loadModel url o centerLng centerLat (some msg)).1.getState.error
        = some ("Failed to load: " ++ msg)
      ∧ (c.loadModel url o centerLng centerLat (some msg)).1.splatLayers
        = c.splatLayers
      ∧ (c.loadModel url o centerLng centerLat (some msg)).1.modelLayers
        = c.modelLayers
      ∧ (c.loadModel url o centerLng centerLat (some msg)).1.getSplatIds
        = c.getSplatIds) := by
  constructor
  · simp [Ctrl.loadSplat, hm, hs, Ctrl.getState, Ctrl.getSplatIds]
  · simp [Ctrl.loadModel, hm, hs, Ctrl.getState, Ctrl.getSplatIds]

/-- A mounted controller used as the C2 witness. -/
def c2Ctrl : Ctrl :=
  ⟨true, true, ⟨⟨90, 0, 0⟩, true, 18⟩,
   ⟨true, "", false, none, none, false, 0, 1, ⟨-90, 90, 0⟩, 1, 0, 0, 0⟩,
   [], [], 0, 0⟩

theorem load_failure_rejects_and_emits_error_witness :
    c2Ctrl.hasMap = true
    ∧ (c2Ctrl.loadModel "bad://url" noOpts 0 0 (some "fetch failed")).2.2
        = .error "fetch failed"
    ∧ (c2Ctrl.loadModel "bad://url" noOpts 0 0 (some "fetch failed")).1.getState.error
        = some ("Failed to load: " ++ "fetch failed") :=
  ⟨by decide,
   ((load_failure_rejects_and_emits_error c2Ctrl "bad://url" "fetch failed"
      noOpts 0 0 (by decide) (by decide)).2).1,
   (((load_failure_rejects_and_emits_error c2Ctrl "bad://url" "fetch failed"
      noOpts 0 0 (by decide) (by decide)).2).2).2.1⟩

/-! ### Claim C5

Round-trip of a successful `loadSplat` with explicit placement through
`getSplatInfo`, and totality of `getSplatInfo` on unknown ids. -/

/-- C5: a successful `loadSplat(url, p)` with explicit longitude,
latitude and altitude resolves with the freshly allocated id, and
`getSplatInfo` of that id on the resulting controller returns exactly
`{url, longitude, latitude, altitude}` from the call; for an id with no
registry entry `getSplatInfo` returns `none` (it is total and never
fails). -/
theorem loadSplat_getSplatInfo_round_trip (c : Ctrl) (url : String)
    (o : LoadOptions) (lo la al : Int) (centerLng centerLat : Int)
    (hm : c.hasMap = true) (hs : c.hasScene = true)
    (hlo : o.longitude = some lo) (hla : o.latitude = some la)
    (hal : o.altitude = some al) :
    ((c.loadSplat url o centerLng centerLat none).2.2
      = .ok (splatIdStr c.layerCounter)
    ∧ (c.loadSplat url o centerLng centerLat none).1.getSplatInfo
        (splatIdStr c.layerCounter) = some ⟨url, lo, la, al⟩)
    ∧ (∀ layerId, mapGet c.splatLayers layerId = none →
        c.getSplatInfo layerId = none) := by
  refine ⟨⟨?_, ?_⟩, fun layerId h => ?_⟩
  · simp [Ctrl.loadSplat, hm, hs]
  · simp [Ctrl.loadSplat, hm, hs, Ctrl.getSplatInfo, hlo, hla, hal,
      mapGet_mapSet_self]
  · simp [Ctrl.getSplatInfo, h]

/-- A mounted controller used as the C5 witness. -/
def c5Ctrl : Ctrl :=
  ⟨true, true, ⟨⟨90, 0, 0⟩, true, 18⟩,
   ⟨true, "", false, none, none, false, 0, 1, ⟨-90, 90, 0⟩, 1, 0, 0, 0⟩,
   [], [], 0, 0⟩

/-- Explicit placement for the C5 witness. -/
def c5Opts : LoadOptions := ⟨some 148, some (-35), some 600, none, none⟩

theorem loadSplat_getSplatInfo_round_trip_witness :
    c5Opts.longitude = some 148
    ∧ (c5Ctrl.loadSplat "https://x/a.splat" c5Opts 0 0 none).1.getSplatInfo
        (splatIdStr c5Ctrl.layerCounter)
      = some ⟨"https://x/a.splat", 148, -35, 600⟩ :=
  ⟨by decide,
   ((loadSplat_getSplatInfo_round_trip c5Ctrl "https://x/a.splat" c5Opts
      148 (-35) 600 0 0 (by decide) (by decide) (by decide) (by decide)
      (by decide)).1).2⟩

/-! ### Claim C4

`getState` returns `{ ...this._state }`: a SHALLOW copy.  The scalar
fields are copied by value, but the nested `rotation` array is copied by
reference, so mutating the returned value's rotation triple mutates the
controller's internal state and is visible in subsequent `getState`
calls.  The claim of a full defensive copy is therefore false. -/

/-- Controller heap for the C4 counterexample: one state object at
address 0 whose rotation array sits at address 0 holding the default
`[-90, 90, 0]`. -/
def c4Heap : Heap :=
  ⟨[⟨true, "", false, none, none, false, 0, 1, 0, 1, 0, 0, 0⟩],
   [⟨-90, 90, 0⟩]⟩

/-- The controller of the C4 counterexample. -/
def c4Ctrl : RefCtrl := ⟨c4Heap, 0⟩

/-- C4 counterexample: mutating the rotation triple nested in the value
returned by `getState()` changes the controller's internal rotation and
the rotation observed by a subsequent `getState()` call — the returned
value is not a defensive copy. -/
theorem getState_nested_mutation_leaks :
    (c4Ctrl.heap.rotAt
      ((c4Ctrl.heap.stateAt c4Ctrl.stateAddr).rotationRef) = ⟨-90, 90, 0⟩)
    ∧ ((let step1 := c4Ctrl.getState
        let c2 : RefCtrl := { step1.1 with
          heap := (step1.1.heap).setRotObj
            (((step1.1.heap).stateAt step1.2).rotationRef) ⟨42, 90, 0⟩ }
        let step2 := c2.getState
        (c2.heap.rotAt
          ((c2.heap.stateAt c2.stateAddr).rotationRef) = ⟨42, 90, 0⟩)
        ∧ ((step2.1.heap).rotAt
          (((step2.1.heap).stateAt step2.2).rotationRef) = ⟨42, 90, 0⟩))) := by
  decide

/-- C4 (amended): `getState()` returns a shallow copy — a freshly
allocated state object, distinct from the internal one and holding the
same field contents, so overwriting top-level fields of the returned
object leaves the internal state untouched; but the nested rotation
triple is shared by reference (`rotationRef` is copied verbatim), so
mutating it through the returned value mutates internal state. -/
theorem getState_shallow_copy (c : RefCtrl)
    (hA : c.stateAddr < c.heap.stateObjs.length) :
    ((c.getState).2 ≠ c.stateAddr)
    ∧ ((c.getState).1.heap.stateAt (c.getState).2
        = c.heap.stateAt c.stateAddr)
    ∧ (∀ f : StateObj,
        (((c.getState).1.heap.setStateObj (c.getState).2 f).stateAt
          c.stateAddr) = c.heap.stateAt c.stateAddr)
    ∧ (((c.getState).1.heap.stateAt (c.getState).2).rotationRef
        = ((c.getState).1.heap.stateAt c.stateAddr).rotationRef) := by
  have haddr : (c.getState).2 = c.heap.stateObjs.length := rfl
  have hne : (c.getState).2 ≠ c.stateAddr := by omega
  have hstateAt_new : (c.getState).1.heap.stateAt (c.getState).2
      = c.heap.stateAt c.stateAddr := by
    show (c.heap.stateObjs ++ [c.heap.stateAt c.stateAddr]).getD
      c.heap.stateObjs.length defaultStateObj = c.heap.stateAt c.stateAddr
    simp [List.getD_eq_getElem?_getD, List.getElem?_append_right]
  have hstateAt_old : (c.getState).1.heap.stateAt c.stateAddr
      = c.heap.stateAt c.stateAddr := by
    show (c.heap.stateObjs ++ [c.heap.stateAt c.stateAddr]).getD
      c.stateAddr defaultStateObj = c.heap.stateAt c.stateAddr
    simp [List.getD_eq_getElem?_getD, List.getElem?_append_left hA,
      Heap.stateAt]
  refine ⟨hne, hstateAt_new, fun f => ?_, by rw [hstateAt_new, hstateAt_old]⟩
  show ((c.heap.stateObjs ++ [c.heap.stateAt c.stateAddr]).set
      (c.getState).2 f).getD c.stateAddr defaultStateObj
    = c.heap.stateAt c.stateAddr
  rw [List.getD_eq_getElem?_getD, List.getElem?_set_ne (by omega)]
  rw [List.getElem?_append_left hA]
  simp [Heap.stateAt, List.getD_eq_getElem?_getD]

theorem getState_shallow_copy_witness :
    c4Ctrl.stateAddr < c4Ctrl.heap.stateObjs.length
    ∧ ((c4Ctrl.getState).2 ≠ c4Ctrl.stateAddr)
    ∧ (((c4Ctrl.getState).1.heap.stateAt (c4Ctrl.getState).2).rotationRef
        = ((c4Ctrl.getState).1.heap.stateAt c4Ctrl.stateAddr).rotationRef) :=
  ⟨by decide, (getState_shallow_copy c4Ctrl (by decide)).1,
   (getState_shallow_copy c4Ctrl (by decide)).2.2.2⟩

/-! ### Event bus lemmas (for C9 / C10) -/

theorem busGetAux_map_upd (f : List HandlerId → List HandlerId)
    (l : List (EvKind × List HandlerId)) (k : EvKind) :
    busGetAux (l.map (fun p => if p.1 = k then (p.1, f p.2) else p)) k
      = (busGetAux l k).map f := by
  induction l with
  | nil => simp [busGetAux]
  | cons p rest ih =>
    obtain ⟨k0, s0⟩ := p
    by_cases hp : k0 = k
    · subst hp
      rw [List.map_cons, if_pos rfl]
      simp [busGetAux, ih]
    · rw [List.map_cons, if_neg hp]
      simpa [busGetAux, hp] using ih

theorem busGetAux_append_single (l : List (EvKind × List HandlerId))
    (k : EvKind) (s : List HandlerId) (h : busGetAux l k = none) :
    busGetAux (l ++ [(k, s)]) k = some s := by
  induction l with
  | nil => simp [busGetAux]
  | cons p rest ih =>
    obtain ⟨k0, s0⟩ := p
    by_cases hp : k0 = k
    · simp [busGetAux, hp] at h
    · simp only [busGetAux, hp, if_false] at h
      simpa [busGetAux, hp] using ih h

theorem busGet_on_self (b : EventBus) (k : EvKind) (h : HandlerId) :
    (b.on k h).get k = some (setAdd ((b.get k).getD []) h) := by
  unfold EventBus.on
  by_cases hk : (b.get k).isSome
  · obtain ⟨s, hsk⟩ := Option.isSome_iff_exists.mp hk
    simp only [hk, if_true]
    show busGetAux (b.handlers.map
      (fun p => if p.1 = k then (p.1, setAdd p.2 h) else p)) k
      = some (setAdd ((b.get k).getD []) h)
    rw [busGetAux_map_upd (fun s => setAdd s h) b.handlers k]
    have hbk : busGetAux b.handlers k = some s := hsk
    rw [hbk]
    show some (setAdd s h) = some (setAdd ((b.get k).getD []) h)
    rw [show b.get k = some s from hsk]
    rfl
  · have hnone : b.get k = none := Option.not_isSome_iff_eq_none.mp hk
    simp only [hk, if_false]
    show busGetAux (b.handlers ++ [(k, setAdd [] h)]) k
      = some (setAdd ((b.get k).getD []) h)
    rw [busGetAux_append_single b.handlers k _ hnone, hnone]
    rfl

theorem busGet_off_self (b : EventBus) (k : EvKind) (h : HandlerId) :
    (b.off k h).get k = (b.get k).map (fun s => setDelete s h) := by
  unfold EventBus.off
  show busGetAux (b.handlers.map
    (fun p => if p.1 = k then (p.1, setDelete p.2 h) else p)) k
    = (b.get k).map (fun s => setDelete s h)
  rw [busGetAux_map_upd (fun s => setDelete s h) b.handlers k]
  rfl

theorem setAdd_idem (s : List HandlerId) (h : HandlerId) :
    setAdd (setAdd s h) h = setAdd s h := by
  unfold setAdd
  by_cases hs : h ∈ s
  · simp [hs]
  · simp [hs]

theorem count_setAdd_of_nodup (s : List HandlerId) (h : HandlerId)
    (hnd : s.Nodup) : (setAdd s h).count h = 1 := by
  unfold setAdd
  by_cases hs : h ∈ s
  · simp only [hs, if_true]
    exact List.count_eq_one_of_mem hnd hs
  · simp only [hs, if_false, List.count_append]
    rw [List.count_eq_zero_of_not_mem hs]
    simp

theorem nodup_setAdd (s : List HandlerId) (h : HandlerId) (hnd : s.Nodup) :
    (setAdd s h).Nodup := by
  unfold setAdd
  by_cases hs : h ∈ s
  · simpa [hs]
  · simp [hs, hnd, List.nodup_append]

theorem not_mem_setDelete (s : List HandlerId) (h : HandlerId) :
    h ∉ setDelete s h := by
  unfold setDelete
  intro hmem
  have := List.of_mem_filter hmem
  simp at this

theorem busGetAux_mem {l : List (EvKind × List HandlerId)} {k : EvKind}
    {s : List HandlerId} (h : busGetAux l k = some s) : (k, s) ∈ l := by
  induction l with
  | nil => simp [busGetAux] at h
  | cons p rest ih =>
    obtain ⟨k0, s0⟩ := p
    by_cases hp : k0 = k
    · subst hp
      simp [busGetAux] at h
      subst h
      simp
    · simp only [busGetAux, hp, if_false] at h
      exact List.mem_cons_of_mem _ (ih h)

theorem busGetAux_map_upd_ne (f : List HandlerId → List HandlerId)
    (l : List (EvKind × List HandlerId)) (k k' : EvKind) (hkk : k' ≠ k) :
    busGetAux (l.map (fun p => if p.1 = k then (p.1, f p.2) else p)) k'
      = busGetAux l k' := by
  induction l with
  | nil => simp [busGetAux]
  | cons p rest ih =>
    obtain ⟨k0, s0⟩ := p
    by_cases hp : k0 = k
    · subst hp
      rw [List.map_cons, if_pos rfl]
      have hne : k0 ≠ k' := fun heq => hkk heq.symm
      simpa [busGetAux, hne] using ih
    · rw [List.map_cons, if_neg hp]
      by_cases hp' : k0 = k'
      · simp [busGetAux, hp']
      · simpa [busGetAux, hp'] using ih

theorem busGetAux_append_ne (l : List (EvKind × List HandlerId))
    (k k' : EvKind) (s : List HandlerId) (hkk : k' ≠ k) :
    busGetAux (l ++ [(k, s)]) k' = busGetAux l k' := by
  induction l with
  | nil => simp [busGetAux, Ne.symm hkk]
  | cons p rest ih =>
    obtain ⟨k0, s0⟩ := p
    by_cases hp' : k0 = k'
    · simp [busGetAux, hp']
    · simpa [busGetAux, hp'] using ih

theorem busGet_on_ne (b : EventBus) (k k' : EvKind) (h : HandlerId)
    (hkk : k' ≠ k) : (b.on k h).get k' = b.get k' := by
  unfold EventBus.on
  by_cases hk : (b.get k).isSome
  · simp only [hk, if_true]
    exact busGetAux_map_upd_ne (fun s => setAdd s h) b.handlers k k' hkk
  · simp only [hk, if_false]
    show busGetAux (b.handlers ++ [(k, setAdd [] h)]) k'
      = busGetAux b.handlers k'
    exact busGetAux_append_ne b.handlers k k' _ hkk

/-! ### Claim C9

`_emit` dispatches synchronously and in registration order, but the
payload field `state: this._state` is the controller's LIVE state object,
not a snapshot: a handler mutating the payload's state mutates the
controller, and later controller mutations remain visible through a
retained payload.  The immutability half of the claim is therefore
false. -/

/-- Heap of the C9 counterexample: the controller's state object lives at
address 0 with `collapsed = true`. -/
def c9Heap : Heap :=
  ⟨[⟨true, "", false, none, none, false, 0, 1, 0, 1, 0, 0, 0⟩],
   [⟨-90, 90, 0⟩]⟩

/-- Bus of the C9 counterexample: handler 7 subscribed to `expand`. -/
def c9Bus : EventBus := EventBus.empty.on .expand 7

/-- The state object a C9 handler writes through the payload. -/
def c9Mutated : StateObj :=
  ⟨false, "", false, none, none, false, 0, 1, 0, 1, 0, 0, 0⟩

/-- C9 counterexample: dispatching `expand` on a controller whose state
object is at heap address 0 hands handler 7 a payload whose `state` field
is that same address, and writing through the payload's state changes the
state the controller itself reads (`collapsed` flips from `true` to
`false`) — the payload carries a live reference, not an immutable
snapshot. -/
theorem emit_payload_is_live_reference :
    ((emitDispatch c9Bus 0 .expand none none none none).map
        (fun call => call.2.stateAddr) = [0])
    ∧ ((c9Heap.stateAt 0).collapsed = true)
    ∧ (((c9Heap.setStateObj
          ((⟨.expand, 0, none, none, none, none⟩ : EmitPayload).stateAddr)
          c9Mutated).stateAt 0).collapsed = false) := by
  decide

/-- C9 (amended): dispatch is synchronous, invoking exactly the handlers
registered for the kind, in registration order, each with the single
payload `{type, state, url?, error?, splatId?, modelId?}`; but the
payload's `state` field is the controller's live state object (the same
heap address), so a handler mutating it mutates internal state, and
controller-state mutations after emission remain visible through the
payload. -/
theorem emit_dispatch_order_and_aliasing (b : EventBus) (stateAddr : Nat)
    (k : EvKind) (u e sid mid : Option String) (hs : List HandlerId)
    (hget : b.get k = some hs) :
    (emitDispatch b stateAddr k u e sid mid
      = hs.map (fun hdl => (hdl, ⟨k, stateAddr, u, e, sid, mid⟩)))
    ∧ (∀ call ∈ emitDispatch b stateAddr k u e sid mid,
        call.2.stateAddr = stateAddr)
    ∧ (∀ heap : Heap, ∀ f : StateObj,
        ∀ call ∈ emitDispatch b stateAddr k u e sid mid,
        heap.setStateObj call.2.stateAddr f
          = heap.setStateObj stateAddr f) := by
  refine ⟨?_, fun call hc => ?_, fun heap f call hc => ?_⟩
  · simp [emitDispatch, hget]
  · simp only [emitDispatch, hget, List.mem_map] at hc
    obtain ⟨hdl, _, rfl⟩ := hc
    rfl
  · simp only [emitDispatch, hget, List.mem_map] at hc
    obtain ⟨hdl, _, rfl⟩ := hc
    rfl

/-- Bus used as the C9 witness: handlers 3 then 8 subscribed to
`splatload`. -/
def c9wBus : EventBus := (EventBus.empty.on .splatload 3).on .splatload 8

theorem emit_dispatch_order_and_aliasing_witness :
    (c9wBus.get .splatload = some [3, 8])
    ∧ (emitDispatch c9wBus 0 .splatload (some "u") none (some "splat-0") none
        = [(3, ⟨.splatload, 0, some "u", none, some "splat-0", none⟩),
           (8, ⟨.splatload, 0, some "u", none, some "splat-0", none⟩)]) :=
  ⟨by decide,
   (emit_dispatch_order_and_aliasing c9wBus 0 .splatload (some "u") none
      (some "splat-0") none [3, 8] (by decide)).1⟩

/-! ### Claim C10

`_eventHandlers` stores the handlers of a kind in a JS `Set`, so
registering the same handler twice equals registering it once. -/

/-- A bus is well formed when every stored handler set is duplicate-free;
this holds for every bus built by `on` / `off` from the constructor state
because JS `Set.add` refuses duplicates. -/
def BusWF (b : EventBus) : Prop :=
  ∀ p ∈ b.handlers, p.2.Nodup

/-- C10: on a well-formed bus, registering the same handler twice for a
kind is observably the same subscription state as registering it once
(every kind's handler set agrees); a dispatch of that kind then invokes
the handler exactly once; and a single `off` fully unsubscribes it: the
handler is gone from the kind's set and a subsequent dispatch never calls
it. -/
theorem double_on_equals_single_on (b : EventBus) (k : EvKind)
    (hdl : HandlerId) (stateAddr : Nat) (u e sid mid : Option String)
    (hwf : BusWF b) :
    (∀ k' : EvKind, ((b.on k hdl).on k hdl).get k' = (b.on k hdl).get k')
    ∧ (((emitDispatch ((b.on k hdl).on k hdl) stateAddr k u e sid mid).map
        Prod.fst).count hdl = 1)
    ∧ (hdl ∉ ((((b.on k hdl).on k hdl).off k hdl).get k).getD [])
    ∧ (((emitDispatch (((b.on k hdl).on k hdl).off k hdl) stateAddr k u e
        sid mid).map Prod.fst).count hdl = 0) := by
  have hbase : ((b.get k).getD []).Nodup := by
    cases hb : b.get k with
    | none => simp
    | some s => simpa using hwf (k, s) (busGetAux_mem hb)
  have h1 : (b.on k hdl).get k = some (setAdd ((b.get k).getD []) hdl) :=
    busGet_on_self b k hdl
  have h2 : ((b.on k hdl).on k hdl).get k
      = some (setAdd (setAdd ((b.get k).getD []) hdl) hdl) := by
    rw [busGet_on_self (b.on k hdl) k hdl, h1]
    rfl
  have h2' : ((b.on k hdl).on k hdl).get k
      = some (setAdd ((b.get k).getD []) hdl) := by
    rw [h2, setAdd_idem]
  have hnd1 : (setAdd ((b.get k).getD []) hdl).Nodup :=
    nodup_setAdd _ hdl hbase
  refine ⟨fun k' => ?_, ?_, ?_, ?_⟩
  · by_cases hk' : k' = k
    · subst hk'
      rw [h2', h1]
    · rw [busGet_on_ne (b.on k hdl) k k' hdl hk']
  · have hemit : emitDispatch ((b.on k hdl).on k hdl) stateAddr k u e sid mid
        = (setAdd ((b.get k).getD []) hdl).map
            (fun h => (h, ⟨k, stateAddr, u, e, sid, mid⟩)) := by
      unfold emitDispatch
      rw [h2']
    rw [hemit, List.map_map]
    have hid : (Prod.fst ∘ fun h : HandlerId =>
        (h, (⟨k, stateAddr, u, e, sid, mid⟩ : EmitPayload))) = id := rfl
    rw [hid, List.map_id]
    exact count_setAdd_of_nodup _ hdl hbase
  · rw [busGet_off_self ((b.on k hdl).on k hdl) k hdl, h2']
    simpa using not_mem_setDelete (setAdd ((b.get k).getD []) hdl) hdl
  · have hoff : (((b.on k hdl).on k hdl).off k hdl).get k
        = some (setDelete (setAdd ((b.get k).getD []) hdl) hdl) := by
      rw [busGet_off_self ((b.on k hdl).on k hdl) k hdl, h2']
      rfl
    have hemit : emitDispatch (((b.on k hdl).on k hdl).off k hdl) stateAddr
          k u e sid mid
        = (setDelete (setAdd ((b.get k).getD []) hdl) hdl).map
            (fun h => (h, ⟨k, stateAddr, u, e, sid, mid⟩)) := by
      unfold emitDispatch
      rw [hoff]
    rw [hemit, List.map_map]
    have hid : (Prod.fst ∘ fun h : HandlerId =>
        (h, (⟨k, stateAddr, u, e, sid, mid⟩ : EmitPayload))) = id := rfl
    rw [hid, List.map_id]
    exact List.count_eq_zero_of_not_mem (not_mem_setDelete _ hdl)

/-- Bus used as the C10 witness: handler 5 already subscribed to
`error`. -/
def c10Bus : EventBus := EventBus.empty.on .error 5

theorem double_on_equals_single_on_witness :
    BusWF c10Bus
    ∧ (((emitDispatch ((c10Bus.on .error 5).on .error 5) 0 .error none
        (some "boom") none none).map Prod.fst).count 5 = 1) :=
  ⟨by unfold BusWF; decide,
   (double_on_equals_single_on c10Bus .error 5 0 none (some "boom") none
      none (by unfold BusWF; decide)).2.1⟩

/-! ### Claim C6

`load` routes by the file extension of the URL path: case-insensitive
(the extension is lowercased), query-string-agnostic (the pathname stops
at `?`), `gltf`/`glb` to the model pipeline with the model-specific
default rotation substituted when the caller gave none, everything else
to the splat pipeline. -/

theorem takeUntilChar_of_not_mem {s : List Char} {c : Char}
    (h : c ∉ s) : takeUntilChar s c = s := by
  induction s with
  | nil => rfl
  | cons x xs ih =>
    simp only [List.mem_cons] at h
    push_neg at h
    have hx : x ≠ c := fun hx => h.1 hx.symm
    simp [takeUntilChar, hx, ih h.2]

theorem takeUntilChar_append_cons {s : List Char} {c : Char}
    (t : List Char) (h : c ∉ s) : takeUntilChar (s ++ c :: t) c = s := by
  induction s with
  | nil => simp [takeUntilChar]
  | cons x xs ih =>
    simp only [List.mem_cons] at h
    push_neg at h
    have hx : x ≠ c := fun hx => h.1 hx.symm
    simp [takeUntilChar, hx, ih h.2]

theorem urlPathnameChars_ignores_query (pd qd : List Char)
    (hp1 : '?' ∉ pd) (hp2 : '#' ∉ pd) (hq : '#' ∉ qd) :
    urlPathnameChars (pd ++ '?' :: qd) = urlPathnameChars pd := by
  unfold urlPathnameChars
  have hhash : ('#' : Char) ∉ pd ++ '?' :: qd := by
    simp only [List.mem_append, List.mem_cons]
    push_neg
    exact ⟨hp2, by decide, hq⟩
  simp only [takeUntilChar_of_not_mem hhash,
    takeUntilChar_append_cons qd hp1, takeUntilChar_of_not_mem hp2,
    takeUntilChar_of_not_mem hp1]

theorem getFileExtension_ignores_query (p q : String)
    (hp1 : '?' ∉ p.data) (hp2 : '#' ∉ p.data) (hq : '#' ∉ q.data) :
    getFileExtension (p ++ "?" ++ q) = getFileExtension p := by
  unfold getFileExtension
  have hdata : (p ++ "?" ++ q).data = p.data ++ '?' :: q.data := by
    simp [String.data_append]
  rw [hdata, urlPathnameChars_ignores_query p.data q.data hp1 hp2 hq]

/-- C6: `load(url, ...)` routes by the lowercased file extension of the
URL path: extension `gltf` or `glb` goes to the model pipeline — with the
model-specific default rotation substituted when the caller supplied none
— and every other extension goes to the splat pipeline; the extension
ignores a query string appended to the path, and in particular
`"https://x/a.GLB?x=1"` has extension `glb` (model pipeline) while
`"https://x/a.spz"` has extension `spz` (splat pipeline). -/
theorem load_routes_by_extension (c : Ctrl) (url : String) (o : LoadOptions)
    (centerLng centerLat : Int) (df : Option String) (p q : String)
    (hp1 : '?' ∉ p.data) (hp2 : '#' ∉ p.data) (hq : '#' ∉ q.data) :
    ((getFileExtension url = "gltf" ∨ getFileExtension url = "glb") →
      (o.rotation = none →
        c.load url o centerLng centerLat df
          = c.loadModel url
              { o with rotation := some c.opts.defaultModelRotation }
              centerLng centerLat df)
      ∧ (∀ r, o.rotation = some r →
        c.load url o centerLng centerLat df
          = c.loadModel url o centerLng centerLat df))
    ∧ (¬ (getFileExtension url = "gltf" ∨ getFileExtension url = "glb") →
        c.load url o centerLng centerLat df
          = c.loadSplat url o centerLng centerLat df)
    ∧ (getFileExtension (p ++ "?" ++ q) = getFileExtension p)
    ∧ (getFileExtension "https://x/a.GLB?x=1" = "glb")
    ∧ (getFileExtension "https://x/a.spz" = "spz")
    ∧ (c.load "https://x/a.spz" o centerLng centerLat df
        = c.loadSplat "https://x/a.spz" o centerLng centerLat df)
    ∧ (o.rotation = none →
        c.load "https://x/a.GLB?x=1" o centerLng centerLat df
          = c.loadModel "https://x/a.GLB?x=1"
              { o with rotation := some c.opts.defaultModelRotation }
              centerLng centerLat df) := by
  have hglb : getFileExtension "https://x/a.GLB?x=1" = "glb" := by decide
  have hspz : getFileExtension "https://x/a.spz" = "spz" := by decide
  refine ⟨fun hext => ⟨fun horot => ?_, fun r horot => ?_⟩, fun hnot => ?_,
    getFileExtension_ignores_query p q hp1 hp2 hq, hglb, hspz, ?_,
    fun horot => ?_⟩
  · rcases hext with h | h <;> simp [Ctrl.load, h, horot]
  · rcases hext with h | h <;> simp [Ctrl.load, h, horot]
  · simp only [Ctrl.load]
    rw [if_neg hnot]
  · simp only [Ctrl.load]
    rw [if_neg (by rw [hspz]; decide)]
  · simp only [Ctrl.load]
    rw [if_pos (by rw [hglb]; exact Or.inr rfl)]
    simp [horot]

/-- A mounted controller used as the C6 witness. -/
def c6Ctrl : Ctrl :=
  ⟨true, true, ⟨⟨90, 0, 0⟩, true, 18⟩,
   ⟨true, "", false, none, none, false, 0, 1, ⟨-90, 90, 0⟩, 1, 0, 0, 0⟩,
   [], [], 0, 0⟩

theorem load_routes_by_extension_witness :
    ('?' ∉ ("https://x/a.GLB" : String).data)
    ∧ (getFileExtension ("https://x/a.GLB" ++ "?" ++ "x=1")
        = getFileExtension "https://x/a.GLB")
    ∧ (c6Ctrl.load "https://x/a.spz" noOpts 0 0 none
        = c6Ctrl.loadSplat "https://x/a.spz" noOpts 0 0 none)
    ∧ (c6Ctrl.load "https://x/a.GLB?x=1" noOpts 0 0 none
        = c6Ctrl.loadModel "https://x/a.GLB?x=1"
            { noOpts with rotation := some c6Ctrl.opts.defaultModelRotation }
            0 0 none) :=
  ⟨by decide,
   (load_routes_by_extension c6Ctrl "u" noOpts 0 0 none "https://x/a.GLB"
      "x=1" (by decide) (by decide) (by decide)).2.2.1,
   (load_routes_by_extension c6Ctrl "https://x/a.spz" noOpts 0 0 none
      "https://x/a.GLB" "x=1" (by decide) (by decide)
      (by decide)).2.2.2.2.2.1,
   (load_routes_by_extension c6Ctrl "https://x/a.GLB?x=1" noOpts 0 0 none
      "https://x/a.GLB" "x=1" (by decide) (by decide)
      (by decide)).2.2.2.2.2.2 rfl⟩

/-! ### Claim C1

The spec (and `removeAllSplats`'s own doc comment, "Remove all splat
layers.") promise that `removeAllSplats()` empties only the splat
registry; model layers and their scene handles must survive.  The source
however delegates `removeAllSplats()` to `_removeAllLayers()`, the
unmount-time clear-all helper, which also removes every model layer.
Evaluating the code at the spec's concrete scenario — 3 loaded splats and
1 loaded model — shows the divergence. -/

/-- A freshly mounted controller for the C1 scenario. -/
def c1Ctrl : Ctrl :=
  ⟨true, true, ⟨⟨90, 0, 0⟩, true, 18⟩,
   ⟨true, "", false, none, none, false, 0, 1, ⟨-90, 90, 0⟩, 1, 0, 0, 0⟩,
   [], [], 0, 0⟩

/-- The C1 controller after three successful splat loads and one
successful model load. -/
def c1Loaded : Ctrl :=
  let r1 := c1Ctrl.loadSplat "https://x/a.splat" ⟨some 1, some 2, some 3, none, none⟩ 0 0 none
  let r2 := r1.1.loadSplat "https://x/b.splat" ⟨some 1, some 2, some 3, none, none⟩ 0 0 none
  let r3 := r2.1.loadSplat "https://x/c.splat" ⟨some 1, some 2, some 3, none, none⟩ 0 0 none
  let r4 := r3.1.loadModel "https://x/m.glb" ⟨some 1, some 2, some 3, none, none⟩ 0 0 none
  r4.1

/-- C1: evaluation of the code at the failing input.  With 3 loaded
splats and 1 loaded model, `removeAllSplats()` does empty the splat
registry, but — because it delegates to `_removeAllLayers()` — it also
deletes the model entry and its scene handle, emits a `modelremove`
event, and leaves `layerCount = 0`, where the claim (and the spec's
scenario) require the model to remain with `layerCount = 1`. -/
theorem removeAllSplats_also_removes_models :
    (c1Loaded.getSplatIds.length = 3)
    ∧ (c1Loaded.modelLayers.length = 1)
    ∧ (c1Loaded.state.layerCount = 4)
    ∧ ((c1Loaded.removeAllSplats).1.getSplatIds = [])
    ∧ ((c1Loaded.removeAllSplats).1.modelLayers = [])
    ∧ ((c1Loaded.removeAllSplats).1.state.layerCount = 0)
    ∧ (¬ (c1Loaded.removeAllSplats).1.state.layerCount = 1)
    ∧ ((c1Loaded.removeAllSplats).2.map Ev.type
        = [.splatremove, .splatremove, .splatremove, .modelremove]) := by
  decide

/-! ### Claim C3: operation sequences and id allocation

An operation alphabet over the public load/remove surface; `step` runs an
operation and keeps the successor controller.  `splatAlloc` / `modelAlloc`
name the counter value a given operation allocates (precisely when the
corresponding load takes its success path). -/

/-- One public lifecycle operation, with its call arguments and the
decode/attach outcome. -/
inductive Op where
  | doLoadSplat (url : String) (o : LoadOptions) (cLng cLat : Int)
      (df : Option String)
  | doLoadModel (url : String) (o : LoadOptions) (cLng cLat : Int)
      (df : Option String)
  | doLoad (url : String) (o : LoadOptions) (cLng cLat : Int)
      (df : Option String)
  | doRemoveSplat (id : String)
  | doRemoveModel (id : String)
  | doRemoveAllSplats
  | doRemoveAllModels
  deriving DecidableEq, Repr

/-- Executes one operation, keeping the successor controller. -/
def Ctrl.step (c : Ctrl) : Op → Ctrl
  | .doLoadSplat url o a b df => (c.loadSplat url o a b df).1
  | .doLoadModel url o a b df => (c.loadModel url o a b df).1
  | .doLoad url o a b df => (c.load url o a b df).1
  | .doRemoveSplat id => (c.removeSplat id).1
  | .doRemoveModel id => (c.removeModel id).1
  | .doRemoveAllSplats => (c.removeAllSplats).1
  | .doRemoveAllModels => (c.removeAllModels).1

/-- Executes a sequence of operations. -/
def Ctrl.run (c : Ctrl) : List Op → Ctrl
  | [] => c
  | op :: rest => (c.step op).run rest

/-- Whether an operation reaches the splat-load success path. -/
def splatLoadSucceeds (c : Ctrl) : Op → Prop
  | .doLoadSplat _ _ _ _ df => c.hasMap = true ∧ c.hasScene = true ∧ df = none
  | .doLoad url _ _ _ df =>
    ¬ (getFileExtension url = "gltf" ∨ getFileExtension url = "glb")
    ∧ c.hasMap = true ∧ c.hasScene = true ∧ df = none
  | _ => False

/-- The splat counter value an operation allocates, if any. -/
def splatAlloc (c : Ctrl) (op : Op) : Option Nat :=
  match op with
  | .doLoadSplat _ _ _ _ df =>
    if c.hasMap = true ∧ c.hasScene = true ∧ df = none
    then some c.layerCounter else none
  | .doLoad url _ _ _ df =>
    if getFileExtension url = "gltf" ∨ getFileExtension url = "glb"
    then none
    else if c.hasMap = true ∧ c.hasScene = true ∧ df = none
    then some c.layerCounter else none
  | _ => none

/-- The model counter value an operation allocates, if any. -/
def modelAlloc (c : Ctrl) (op : Op) : Option Nat :=
  match op with
  | .doLoadModel _ _ _ _ df =>
    if c.hasMap = true ∧ c.hasScene = true ∧ df = none
    then some c.modelCounter else none
  | .doLoad url _ _ _ df =>
    if getFileExtension url = "gltf" ∨ getFileExtension url = "glb"
    then (if c.hasMap = true ∧ c.hasScene = true ∧ df = none
      then some c.modelCounter else none)
    else none
  | _ => none

/-- Splat counter values allocated along a run, in order. -/
def splatAllocs : Ctrl → List Op → List Nat
  | _, [] => []
  | c, op :: rest => (splatAlloc c op).toList ++ splatAllocs (c.step op) rest

/-- Model counter values allocated along a run, in order. -/
def modelAllocs : Ctrl → List Op → List Nat
  | _, [] => []
  | c, op :: rest => (modelAlloc c op).toList ++ modelAllocs (c.step op) rest

/-! Effect lemmas for the individual operations. -/

theorem loadSplat_effects (c : Ctrl) (url : String) (o : LoadOptions)
    (a b : Int) (df : Option String) :
    ((c.loadSplat url o a b df).1.modelCounter = c.modelCounter)
    ∧ ((c.loadSplat url o a b df).1.hasMap = c.hasMap)
    ∧ ((c.loadSplat url o a b df).1.hasScene = c.hasScene)
    ∧ ((c.loadSplat url o a b df).1.modelLayers = c.modelLayers)
    ∧ (¬ (c.hasMap = true ∧ c.hasScene = true ∧ df = none) →
        (c.loadSplat url o a b df).1.splatLayers = c.splatLayers
        ∧ (c.loadSplat url o a b df).1.layerCounter = c.layerCounter)
    ∧ ((c.hasMap = true ∧ c.hasScene = true ∧ df = none) →
        ((c.loadSplat url o a b df).1.splatLayers.map Prod.fst
          = (if (mapGet c.splatLayers (splatIdStr c.layerCounter)).isSome
             then c.splatLayers.map Prod.fst
             else c.splatLayers.map Prod.fst ++ [splatIdStr c.layerCounter]))
        ∧ (c.loadSplat url o a b df).1.layerCounter = c.layerCounter + 1
        ∧ (c.loadSplat url o a b df).2.2 = .ok (splatIdStr c.layerCounter)) := by
  by_cases hm : c.hasMap = true ∧ c.hasScene = true
  · cases df with
    | none =>
      refine ⟨?_, ?_, ?_, ?_, fun hno => absurd ⟨hm.1, hm.2, rfl⟩ hno,
        fun _ => ⟨?_, ?_, ?_⟩⟩ <;>
        simp [Ctrl.loadSplat, hm.1, hm.2, map_fst_mapSet]
    | some msg =>
      refine ⟨?_, ?_, ?_, ?_, fun _ => ⟨?_, ?_⟩,
        fun hyes => absurd hyes.2.2 (by simp)⟩ <;>
        simp [Ctrl.loadSplat, hm.1, hm.2]
  · have hcond : ¬ (c.hasMap ∧ c.hasScene) := by
      intro hc
      exact hm ⟨by simpa using hc.1, by simpa using hc.2⟩
    refine ⟨?_, ?_, ?_, ?_, fun _ => ⟨?_, ?_⟩,
      fun hyes => absurd ⟨hyes.1, hyes.2.1⟩ hm⟩ <;>
      simp [Ctrl.loadSplat, hcond]

theorem loadModel_effects (c : Ctrl) (url : String) (o : LoadOptions)
    (a b : Int) (df : Option String) :
    ((c.loadModel url o a b df).1.layerCounter = c.layerCounter)
    ∧ ((c.loadModel url o a b df).1.hasMap = c.hasMap)
    ∧ ((c.loadModel url o a b df).1.hasScene = c.hasScene)
    ∧ ((c.loadModel url o a b df).1.splatLayers = c.splatLayers)
    ∧ (¬ (c.hasMap = true ∧ c.hasScene = true ∧ df = none) →
        (c.loadModel url o a b df).1.modelLayers = c.modelLayers
        ∧ (c.loadModel url o a b df).1.modelCounter = c.modelCounter)
    ∧ ((c.hasMap = true ∧ c.hasScene = true ∧ df = none) →
        ((c.loadModel url o a b df).1.modelLayers.map Prod.fst
          = (if (mapGet c.modelLayers (modelIdStr c.modelCounter)).isSome
             then c.modelLayers.map Prod.fst
             else c.modelLayers.map Prod.fst ++ [modelIdStr c.modelCounter]))
        ∧ (c.loadModel url o a b df).1.modelCounter = c.modelCounter + 1
        ∧ (c.loadModel url o a b df).2.2 = .ok (modelIdStr c.modelCounter)) := by
  by_cases hm : c.hasMap = true ∧ c.hasScene = true
  · cases df with
    | none =>
      refine ⟨?_, ?_, ?_, ?_, fun hno => absurd ⟨hm.1, hm.2, rfl⟩ hno,
        fun _ => ⟨?_, ?_, ?_⟩⟩ <;>
        simp [Ctrl.loadModel, hm.1, hm.2, map_fst_mapSet]
    | some msg =>
      refine ⟨?_, ?_, ?_, ?_, fun _ => ⟨?_, ?_⟩,
        fun hyes => absurd hyes.2.2 (by simp)⟩ <;>
        simp [Ctrl.loadModel, hm.1, hm.2]
  · have hcond : ¬ (c.hasMap ∧ c.hasScene) := by
      intro hc
      exact hm ⟨by simpa using hc.1, by simpa using hc.2⟩
    refine ⟨?_, ?_, ?_, ?_, fun _ => ⟨?_, ?_⟩,
      fun hyes => absurd ⟨hyes.1, hyes.2.1⟩ hm⟩ <;>
      simp [Ctrl.loadModel, hcond]

theorem removeSplat_effects (c : Ctrl) (id : String) :
    ((c.removeSplat id).1.layerCounter = c.layerCounter)
    ∧ ((c.removeSplat id).1.modelCounter = c.modelCounter)
    ∧ ((c.removeSplat id).1.hasMap = c.hasMap)
    ∧ ((c.removeSplat id).1.hasScene = c.hasScene)
    ∧ ((c.removeSplat id).1.modelLayers = c.modelLayers)
    ∧ (((c.removeSplat id).1.splatLayers.map Prod.fst).Sublist
        (c.splatLayers.map Prod.fst)) := by
  unfold Ctrl.removeSplat
  cases h : mapGet c.splatLayers id with
  | none => simp
  | some v =>
    by_cases hs : c.hasScene = true
    · simpa [hs] using map_fst_mapDelete_sublist c.splatLayers id
    · simp [hs]

theorem removeModel_effects (c : Ctrl) (id : String) :
    ((c.removeModel id).1.layerCounter = c.layerCounter)
    ∧ ((c.removeModel id).1.modelCounter = c.modelCounter)
    ∧ ((c.removeModel id).1.hasMap = c.hasMap)
    ∧ ((c.removeModel id).1.hasScene = c.hasScene)
    ∧ ((c.removeModel id).1.splatLayers = c.splatLayers)
    ∧ (((c.removeModel id).1.modelLayers.map Prod.fst).Sublist
        (c.modelLayers.map Prod.fst)) := by
  unfold Ctrl.removeModel
  cases h : mapGet c.modelLayers id with
  | none => simp
  | some v =>
    by_cases hs : c.hasScene = true
    · simpa [hs] using map_fst_mapDelete_sublist c.modelLayers id
    · simp [hs]

theorem removeSplatEach_effects (ids : List String) (c : Ctrl) :
    ((c.removeSplatEach ids).1.layerCounter = c.layerCounter)
    ∧ ((c.removeSplatEach ids).1.modelCounter = c.modelCounter)
    ∧ ((c.removeSplatEach ids).1.hasMap = c.hasMap)
    ∧ ((c.removeSplatEach ids).1.hasScene = c.hasScene)
    ∧ ((c.removeSplatEach ids).1.modelLayers = c.modelLayers)
    ∧ (((c.removeSplatEach ids).1.splatLayers.map Prod.fst).Sublist
        (c.splatLayers.map Prod.fst)) := by
  induction ids generalizing c with
  | nil => simp [Ctrl.removeSplatEach]
  | cons id rest ih =>
    have h1 := removeSplat_effects c id
    rcases hrs : c.removeSplat id with ⟨c1, e1⟩
    rw [hrs] at h1
    have h2 := ih c1
    have hstep : (c.removeSplatEach (id :: rest)).1
        = (c1.removeSplatEach rest).1 := by
      simp [Ctrl.removeSplatEach, hrs]
    rw [hstep]
    exact ⟨by rw [h2.1, h1.1], by rw [h2.2.1, h1.2.1],
      by rw [h2.2.2.1, h1.2.2.1], by rw [h2.2.2.2.1, h1.2.2.2.1],
      by rw [h2.2.2.2.2.1, h1.2.2.2.2.1],
      h2.2.2.2.2.2.trans h1.2.2.2.2.2⟩

theorem removeModelEach_effects (ids : List String) (c : Ctrl) :
    ((c.removeModelEach ids).1.layerCounter = c.layerCounter)
    ∧ ((c.removeModelEach ids).1.modelCounter = c.modelCounter)
    ∧ ((c.removeModelEach ids).1.hasMap = c.hasMap)
    ∧ ((c.removeModelEach ids).1.hasScene = c.hasScene)
    ∧ ((c.removeModelEach ids).1.splatLayers = c.splatLayers)
    ∧ (((c.removeModelEach ids).1.modelLayers.map Prod.fst).Sublist
        (c.modelLayers.map Prod.fst)) := by
  induction ids generalizing c with
  | nil => simp [Ctrl.removeModelEach]
  | cons id rest ih =>
    have h1 := removeModel_effects c id
    rcases hrs : c.removeModel id with ⟨c1, e1⟩
    rw [hrs] at h1
    have h2 := ih c1
    have hstep : (c.removeModelEach (id :: rest)).1
        = (c1.removeModelEach rest).1 := by
      simp [Ctrl.removeModelEach, hrs]
    rw [hstep]
    exact ⟨by rw [h2.1, h1.1], by rw [h2.2.1, h1.2.1],
      by rw [h2.2.2.1, h1.2.2.1], by rw [h2.2.2.2.1, h1.2.2.2.1],
      by rw [h2.2.2.2.2.1, h1.2.2.2.2.1],
      h2.2.2.2.2.2.trans h1.2.2.2.2.2⟩

theorem removeAllLayers_effects (c : Ctrl) :
    ((c.removeAllLayers).1.layerCounter = c.layerCounter)
    ∧ ((c.removeAllLayers).1.modelCounter = c.modelCounter)
    ∧ ((c.removeAllLayers).1.hasMap = c.hasMap)
    ∧ ((c.removeAllLayers).1.hasScene = c.hasScene)
    ∧ (((c.removeAllLayers).1.splatLayers.map Prod.fst).Sublist
        (c.splatLayers.map Prod.fst))
    ∧ (((c.removeAllLayers).1.modelLayers.map Prod.fst).Sublist
        (c.modelLayers.map Prod.fst)) := by
  have h1 := removeSplatEach_effects (c.splatLayers.map Prod.fst) c
  rcases hrs : c.removeSplatEach (c.splatLayers.map Prod.fst) with ⟨c1, e1⟩
  rw [hrs] at h1
  have h2 := removeModelEach_effects (c1.modelLayers.map Prod.fst) c1
  rcases hrm : c1.removeModelEach (c1.modelLayers.map Prod.fst) with ⟨c2, e2⟩
  rw [hrm] at h2
  have hstep : (c.removeAllLayers).1 = c2 := by
    simp [Ctrl.removeAllLayers, hrs, hrm]
  rw [hstep]
  refine ⟨by rw [h2.1, h1.1], by rw [h2.2.1, h1.2.1],
    by rw [h2.2.2.1, h1.2.2.1], by rw [h2.2.2.2.1, h1.2.2.2.1],
    ?_, ?_⟩
  · have hk : c2.splatLayers = c1.splatLayers := h2.2.2.2.2.1
    rw [hk]
    exact h1.2.2.2.2.2
  · have hk : c1.modelLayers = c.modelLayers := h1.2.2.2.2.1
    rw [← hk]
    exact h2.2.2.2.2.2

theorem splatAlloc_eq_counter {c : Ctrl} {op : Op} {m : Nat}
    (h : splatAlloc c op = some m) : m = c.layerCounter := by
  cases op <;> simp only [splatAlloc] at h
  case doLoadSplat url o a b df =>
    split at h
    · exact (Option.some.injEq _ _ ▸ h).symm
    · cases h
  case doLoad url o a b df =>
    split at h
    · cases h
    · split at h
      · exact (Option.some.injEq _ _ ▸ h).symm
      · cases h
  all_goals cases h

theorem modelAlloc_eq_counter {c : Ctrl} {op : Op} {m : Nat}
    (h : modelAlloc c op = some m) : m = c.modelCounter := by
  cases op <;> simp only [modelAlloc] at h
  case doLoadModel url o a b df =>
    split at h
    · exact (Option.some.injEq _ _ ▸ h).symm
    · cases h
  case doLoad url o a b df =>
    split at h
    · split at h
      · exact (Option.some.injEq _ _ ▸ h).symm
      · cases h
    · cases h
  all_goals cases h

theorem step_doLoad_eq (c : Ctrl) (url : String) (o : LoadOptions)
    (a b : Int) (df : Option String) :
    c.step (.doLoad url o a b df)
      = if getFileExtension url = "gltf" ∨ getFileExtension url = "glb"
        then (c.loadModel url (match o.rotation with
          | none => { o with rotation := some c.opts.defaultModelRotation }
          | some _ => o) a b df).1
        else (c.loadSplat url o a b df).1 := by
  show (c.load url o a b df).1 = _
  unfold Ctrl.load
  by_cases hext : getFileExtension url = "gltf" ∨ getFileExtension url = "glb"
  · rw [if_pos hext, if_pos hext]
  · rw [if_neg hext, if_neg hext]

theorem step_layerCounter (c : Ctrl) (op : Op) :
    (c.step op).layerCounter
      = c.layerCounter + (splatAlloc c op).toList.length := by
  cases op with
  | doLoadSplat url o a b df =>
    by_cases hc : c.hasMap = true ∧ c.hasScene = true ∧ df = none
    · have heff := (loadSplat_effects c url o a b df).2.2.2.2.2 hc
      have halloc : splatAlloc c (.doLoadSplat url o a b df)
          = some c.layerCounter := by simp [splatAlloc, hc]
      show (c.loadSplat url o a b df).1.layerCounter = _
      rw [heff.2.1, halloc]
      rfl
    · have heff := (loadSplat_effects c url o a b df).2.2.2.2.1 hc
      have halloc : splatAlloc c (.doLoadSplat url o a b df) = none := by
        simp only [splatAlloc, if_neg hc]
      show (c.loadSplat url o a b df).1.layerCounter = _
      rw [heff.2, halloc]
      rfl
  | doLoadModel url o a b df =>
    show (c.loadModel url o a b df).1.layerCounter = _
    rw [(loadModel_effects c url o a b df).1]
    rfl
  | doLoad url o a b df =>
    rw [show (c.step (.doLoad url o a b df)).layerCounter
        = (c.load url o a b df).1.layerCounter from rfl]
    unfold Ctrl.load
    by_cases hext : getFileExtension url = "gltf" ∨ getFileExtension url = "glb"
    · rw [if_pos hext]
      have halloc : splatAlloc c (.doLoad url o a b df) = none := by
        simp only [splatAlloc, if_pos hext]
      rw [(loadModel_effects c url _ a b df).1, halloc]
      rfl
    · rw [if_neg hext]
      by_cases hc : c.hasMap = true ∧ c.hasScene = true ∧ df = none
      · have heff := (loadSplat_effects c url o a b df).2.2.2.2.2 hc
        have halloc : splatAlloc c (.doLoad url o a b df)
            = some c.layerCounter := by
          simp only [splatAlloc, if_neg hext]
          simp [hc]
        rw [heff.2.1, halloc]
        rfl
      · have heff := (loadSplat_effects c url o a b df).2.2.2.2.1 hc
        have halloc : splatAlloc c (.doLoad url o a b df) = none := by
          simp only [splatAlloc, if_neg hext, if_neg hc]
        rw [heff.2, halloc]
        rfl
  | doRemoveSplat id =>
    show (c.removeSplat id).1.layerCounter = _
    rw [(removeSplat_effects c id).1]
    rfl
  | doRemoveModel id =>
    show (c.removeModel id).1.layerCounter = _
    rw [(removeModel_effects c id).1]
    rfl
  | doRemoveAllSplats =>
    show (c.removeAllLayers).1.layerCounter = _
    rw [(removeAllLayers_effects c).1]
    rfl
  | doRemoveAllModels =>
    show (c.removeModelEach (c.modelLayers.map Prod.fst)).1.layerCounter = _
    rw [(removeModelEach_effects (c.modelLayers.map Prod.fst) c).1]
    rfl

theorem step_modelCounter (c : Ctrl) (op : Op) :
    (c.step op).modelCounter
      = c.modelCounter + (modelAlloc c op).toList.length := by
  cases op with
  | doLoadModel url o a b df =>
    by_cases hc : c.hasMap = true ∧ c.hasScene = true ∧ df = none
    · have heff := (loadModel_effects c url o a b df).2.2.2.2.2 hc
      have halloc : modelAlloc c (.doLoadModel url o a b df)
          = some c.modelCounter := by simp [modelAlloc, hc]
      show (c.loadModel url o a b df).1.modelCounter = _
      rw [heff.2.1, halloc]
      rfl
    · have heff := (loadModel_effects c url o a b df).2.2.2.2.1 hc
      have halloc : modelAlloc c (.doLoadModel url o a b df) = none := by
        simp only [modelAlloc, if_neg hc]
      show (c.loadModel url o a b df).1.modelCounter = _
      rw [heff.2, halloc]
      rfl
  | doLoadSplat url o a b df =>
    show (c.loadSplat url o a b df).1.modelCounter = _
    rw [(loadSplat_effects c url o a b df).1]
    rfl
  | doLoad url o a b df =>
    rw [show (c.step (.doLoad url o a b df)).modelCounter
        = (c.load url o a b df).1.modelCounter from rfl]
    unfold Ctrl.load
    by_cases hext : getFileExtension url = "gltf" ∨ getFileExtension url = "glb"
    · rw [if_pos hext]
      by_cases hc : c.hasMap = true ∧ c.hasScene = true ∧ df = none
      · have heff := (loadModel_effects c url (match o.rotation with
          | none => { o with rotation := some c.opts.defaultModelRotation }
          | some _ => o) a b df).2.2.2.2.2 hc
        have halloc : modelAlloc c (.doLoad url o a b df)
            = some c.modelCounter := by
          simp only [modelAlloc, if_pos hext]
          simp [hc]
        rw [heff.2.1, halloc]
        rfl
      · have heff := (loadModel_effects c url (match o.rotation with
          | none => { o with rotation := some c.opts.defaultModelRotation }
          | some _ => o) a b df).2.2.2.2.1 hc
        have halloc : modelAlloc c (.doLoad url o a b df) = none := by
          simp only [modelAlloc, if_pos hext, if_neg hc]
        rw [heff.2, halloc]
        rfl
    · rw [if_neg hext]
      have halloc : modelAlloc c (.doLoad url o a b df) = none := by
        simp only [modelAlloc, if_neg hext]
      rw [(loadSplat_effects c url o a b df).1, halloc]
      rfl
  | doRemoveSplat id =>
    show (c.removeSplat id).1.modelCounter = _
    rw [(removeSplat_effects c id).2.1]
    rfl
  | doRemoveModel id =>
    show (c.removeModel id).1.modelCounter = _
    rw [(removeModel_effects c id).2.1]
    rfl
  | doRemoveAllSplats =>
    show (c.removeAllLayers).1.modelCounter = _
    rw [(removeAllLayers_effects c).2.1]
    rfl
  | doRemoveAllModels =>
    show (c.removeModelEach (c.modelLayers.map Prod.fst)).1.modelCounter = _
    rw [(removeModelEach_effects (c.modelLayers.map Prod.fst) c).2.1]
    rfl

/-! ### Registry invariant and run-level lemmas -/

/-- Splat-registry well-formedness: every key is `splat-<n>` with
`n < _layerCounter`, and keys are distinct. Holds at construction (both
maps empty, counters zero) and is preserved by every operation. -/
def SplatRegOK (c : Ctrl) : Prop :=
  (∀ k ∈ c.splatLayers.map Prod.fst,
    ∃ n, n < c.layerCounter ∧ k = splatIdStr n)
  ∧ (c.splatLayers.map Prod.fst).Nodup

/-- Model-registry well-formedness. -/
def ModelRegOK (c : Ctrl) : Prop :=
  (∀ k ∈ c.modelLayers.map Prod.fst,
    ∃ n, n < c.modelCounter ∧ k = modelIdStr n)
  ∧ (c.modelLayers.map Prod.fst).Nodup

/-- Both registries well formed. -/
def RegOK (c : Ctrl) : Prop := SplatRegOK c ∧ ModelRegOK c

theorem splatRegOK_of_sublist {c c' : Ctrl}
    (hcnt : c'.layerCounter = c.layerCounter)
    (hsub : (c'.splatLayers.map Prod.fst).Sublist
      (c.splatLayers.map Prod.fst))
    (h : SplatRegOK c) : SplatRegOK c' := by
  refine ⟨fun k hk => ?_, h.2.sublist hsub⟩
  obtain ⟨n, hn, he⟩ := h.1 k (hsub.subset hk)
  exact ⟨n, by omega, he⟩

theorem splatRegOK_of_eq {c c' : Ctrl}
    (hcnt : c'.layerCounter = c.layerCounter)
    (hl : c'.splatLayers = c.splatLayers)
    (h : SplatRegOK c) : SplatRegOK c' := by
  apply splatRegOK_of_sublist hcnt ?_ h
  rw [hl]

theorem modelRegOK_of_sublist {c c' : Ctrl}
    (hcnt : c'.modelCounter = c.modelCounter)
    (hsub : (c'.modelLayers.map Prod.fst).Sublist
      (c.modelLayers.map Prod.fst))
    (h : ModelRegOK c) : ModelRegOK c' := by
  refine ⟨fun k hk => ?_, h.2.sublist hsub⟩
  obtain ⟨n, hn, he⟩ := h.1 k (hsub.subset hk)
  exact ⟨n, by omega, he⟩

theorem modelRegOK_of_eq {c c' : Ctrl}
    (hcnt : c'.modelCounter = c.modelCounter)
    (hl : c'.modelLayers = c.modelLayers)
    (h : ModelRegOK c) : ModelRegOK c' := by
  apply modelRegOK_of_sublist hcnt ?_ h
  rw [hl]

theorem splatRegOK_insert {c c' : Ctrl} (h : SplatRegOK c)
    (hcnt : c'.layerCounter = c.layerCounter + 1)
    (hkeys : c'.splatLayers.map Prod.fst
      = (if (mapGet c.splatLayers (splatIdStr c.layerCounter)).isSome
         then c.splatLayers.map Prod.fst
         else c.splatLayers.map Prod.fst ++ [splatIdStr c.layerCounter])) :
    SplatRegOK c' := by
  have hnotin : splatIdStr c.layerCounter ∉ c.splatLayers.map Prod.fst := by
    intro hk
    obtain ⟨n, hn, he⟩ := h.1 _ hk
    have := splatIdStr_inj he
    omega
  rw [mapGet_eq_none_of_not_mem hnotin] at hkeys
  simp only [Option.isSome_none, Bool.false_eq_true, if_false] at hkeys
  constructor
  · intro k hk
    rw [hkeys] at hk
    rcases List.mem_append.mp hk with hk | hk
    · obtain ⟨n, hn, he⟩ := h.1 k hk
      exact ⟨n, by omega, he⟩
    · simp only [List.mem_singleton] at hk
      exact ⟨c.layerCounter, by omega, hk⟩
  · rw [hkeys]
    simp [List.nodup_append, h.2, hnotin]

theorem modelRegOK_insert {c c' : Ctrl} (h : ModelRegOK c)
    (hcnt : c'.modelCounter = c.modelCounter + 1)
    (hkeys : c'.modelLayers.map Prod.fst
      = (if (mapGet c.modelLayers (modelIdStr c.modelCounter)).isSome
         then c.modelLayers.map Prod.fst
         else c.modelLayers.map Prod.fst ++ [modelIdStr c.modelCounter])) :
    ModelRegOK c' := by
  have hnotin : modelIdStr c.modelCounter ∉ c.modelLayers.map Prod.fst := by
    intro hk
    obtain ⟨n, hn, he⟩ := h.1 _ hk
    have := modelIdStr_inj he
    omega
  rw [mapGet_eq_none_of_not_mem hnotin] at hkeys
  simp only [Option.isSome_none, Bool.false_eq_true, if_false] at hkeys
  constructor
  · intro k hk
    rw [hkeys] at hk
    rcases List.mem_append.mp hk with hk | hk
    · obtain ⟨n, hn, he⟩ := h.1 k hk
      exact ⟨n, by omega, he⟩
    · simp only [List.mem_singleton] at hk
      exact ⟨c.modelCounter, by omega, hk⟩
  · rw [hkeys]
    simp [List.nodup_append, h.2, hnotin]

theorem step_RegOK {c : Ctrl} (op : Op) (h : RegOK c) : RegOK (c.step op) := by
  cases op with
  | doLoadSplat url o a b df =>
    have heff := loadSplat_effects c url o a b df
    by_cases hc : c.hasMap = true ∧ c.hasScene = true ∧ df = none
    · have hsucc := heff.2.2.2.2.2 hc
      exact ⟨splatRegOK_insert h.1 hsucc.2.1 hsucc.1,
        modelRegOK_of_eq heff.1 heff.2.2.2.1 h.2⟩
    · have hfail := heff.2.2.2.2.1 hc
      exact ⟨splatRegOK_of_eq hfail.2 hfail.1 h.1,
        modelRegOK_of_eq heff.1 heff.2.2.2.1 h.2⟩
  | doLoadModel url o a b df =>
    have heff := loadModel_effects c url o a b df
    by_cases hc : c.hasMap = true ∧ c.hasScene = true ∧ df = none
    · have hsucc := heff.2.2.2.2.2 hc
      exact ⟨splatRegOK_of_eq heff.1 heff.2.2.2.1 h.1,
        modelRegOK_insert h.2 hsucc.2.1 hsucc.1⟩
    · have hfail := heff.2.2.2.2.1 hc
      exact ⟨splatRegOK_of_eq heff.1 heff.2.2.2.1 h.1,
        modelRegOK_of_eq hfail.2 hfail.1 h.2⟩
  | doLoad url o a b df =>
    rw [step_doLoad_eq]
    by_cases hext : getFileExtension url = "gltf" ∨ getFileExtension url = "glb"
    · rw [if_pos hext]
      have heff := loadModel_effects c url (match o.rotation with
        | none => { o with rotation := some c.opts.defaultModelRotation }
        | some _ => o) a b df
      by_cases hc : c.hasMap = true ∧ c.hasScene = true ∧ df = none
      · have hsucc := heff.2.2.2.2.2 hc
        exact ⟨splatRegOK_of_eq heff.1 heff.2.2.2.1 h.1,
          modelRegOK_insert h.2 hsucc.2.1 hsucc.1⟩
      · have hfail := heff.2.2.2.2.1 hc
        exact ⟨splatRegOK_of_eq heff.1 heff.2.2.2.1 h.1,
          modelRegOK_of_eq hfail.2 hfail.1 h.2⟩
    · rw [if_neg hext]
      have heff := loadSplat_effects c url o a b df
      by_cases hc : c.hasMap = true ∧ c.hasScene = true ∧ df = none
      · have hsucc := heff.2.2.2.2.2 hc
        exact ⟨splatRegOK_insert h.1 hsucc.2.1 hsucc.1,
          modelRegOK_of_eq heff.1 heff.2.2.2.1 h.2⟩
      · have hfail := heff.2.2.2.2.1 hc
        exact ⟨splatRegOK_of_eq hfail.2 hfail.1 h.1,
          modelRegOK_of_eq heff.1 heff.2.2.2.1 h.2⟩
  | doRemoveSplat id =>
    have heff := removeSplat_effects c id
    exact ⟨splatRegOK_of_sublist heff.1 heff.2.2.2.2.2 h.1,
      modelRegOK_of_eq heff.2.1 heff.2.2.2.2.1 h.2⟩
  | doRemoveModel id =>
    have heff := removeModel_effects c id
    exact ⟨splatRegOK_of_eq heff.1 heff.2.2.2.2.1 h.1,
      modelRegOK_of_sublist heff.2.1 heff.2.2.2.2.2 h.2⟩
  | doRemoveAllSplats =>
    have heff := removeAllLayers_effects c
    exact ⟨splatRegOK_of_sublist heff.1 heff.2.2.2.2.1 h.1,
      modelRegOK_of_sublist heff.2.1 heff.2.2.2.2.2 h.2⟩
  | doRemoveAllModels =>
    have heff := removeModelEach_effects (c.modelLayers.map Prod.fst) c
    exact ⟨splatRegOK_of_eq heff.1 heff.2.2.2.2.1 h.1,
      modelRegOK_of_sublist heff.2.1 heff.2.2.2.2.2 h.2⟩

theorem run_RegOK {c : Ctrl} (ops : List Op) (h : RegOK c) :
    RegOK (c.run ops) := by
  induction ops generalizing c with
  | nil => exact h
  | cons op rest ih => exact ih (step_RegOK op h)

theorem run_layerCounter (c : Ctrl) (ops : List Op) :
    (c.run ops).layerCounter
      = c.layerCounter + (splatAllocs c ops).length := by
  induction ops generalizing c with
  | nil => simp [Ctrl.run, splatAllocs]
  | cons op rest ih =>
    show ((c.step op).run rest).layerCounter = _
    rw [ih (c.step op), step_layerCounter]
    simp only [splatAllocs, List.length_append]
    omega

theorem run_modelCounter (c : Ctrl) (ops : List Op) :
    (c.run ops).modelCounter
      = c.modelCounter + (modelAllocs c ops).length := by
  induction ops generalizing c with
  | nil => simp [Ctrl.run, modelAllocs]
  | cons op rest ih =>
    show ((c.step op).run rest).modelCounter = _
    rw [ih (c.step op), step_modelCounter]
    simp only [modelAllocs, List.length_append]
    omega

theorem mem_splatAllocs_ge (c : Ctrl) (ops : List Op) :
    ∀ n ∈ splatAllocs c ops, c.layerCounter ≤ n := by
  induction ops generalizing c with
  | nil => simp [splatAllocs]
  | cons op rest ih =>
    intro n hn
    simp only [splatAllocs, List.mem_append] at hn
    rcases hn with hn | hn
    · cases ha : splatAlloc c op with
      | none => rw [ha] at hn; simp at hn
      | some m =>
        rw [ha] at hn
        simp only [Option.toList_some, List.mem_singleton] at hn
        subst hn
        rw [splatAlloc_eq_counter ha]
    · have hge := ih (c.step op) n hn
      have hstep := step_layerCounter c op
      omega

theorem mem_modelAllocs_ge (c : Ctrl) (ops : List Op) :
    ∀ n ∈ modelAllocs c ops, c.modelCounter ≤ n := by
  induction ops generalizing c with
  | nil => simp [modelAllocs]
  | cons op rest ih =>
    intro n hn
    simp only [modelAllocs, List.mem_append] at hn
    rcases hn with hn | hn
    · cases ha : modelAlloc c op with
      | none => rw [ha] at hn; simp at hn
      | some m =>
        rw [ha] at hn
        simp only [Option.toList_some, List.mem_singleton] at hn
        subst hn
        rw [modelAlloc_eq_counter ha]
    · have hge := ih (c.step op) n hn
      have hstep := step_modelCounter c op
      omega

theorem pairwise_splatAllocs (c : Ctrl) (ops : List Op) :
    List.Pairwise (· < ·) (splatAllocs c ops) := by
  induction ops generalizing c with
  | nil => simp [splatAllocs]
  | cons op rest ih =>
    simp only [splatAllocs]
    cases ha : splatAlloc c op with
    | none => simpa using ih (c.step op)
    | some m =>
      simp only [Option.toList_some, List.singleton_append,
        List.pairwise_cons]
      refine ⟨fun n hn => ?_, ih (c.step op)⟩
      have hm : m = c.layerCounter := splatAlloc_eq_counter ha
      have hge := mem_splatAllocs_ge (c.step op) rest n hn
      have hstep := step_layerCounter c op
      rw [ha] at hstep
      simp only [Option.toList_some, List.length_singleton] at hstep
      omega

theorem pairwise_modelAllocs (c : Ctrl) (ops : List Op) :
    List.Pairwise (· < ·) (modelAllocs c ops) := by
  induction ops generalizing c with
  | nil => simp [modelAllocs]
  | cons op rest ih =>
    simp only [modelAllocs]
    cases ha : modelAlloc c op with
    | none => simpa using ih (c.step op)
    | some m =>
      simp only [Option.toList_some, List.singleton_append,
        List.pairwise_cons]
      refine ⟨fun n hn => ?_, ih (c.step op)⟩
      have hm : m = c.modelCounter := modelAlloc_eq_counter ha
      have hge := mem_modelAllocs_ge (c.step op) rest n hn
      have hstep := step_modelCounter c op
      rw [ha] at hstep
      simp only [Option.toList_some, List.length_singleton] at hstep
      omega

/-- C3: along any sequence of load and remove operations from a
well-formed controller, (i) both id counters never decrease, and each
counter grows by exactly the number of successful loads of its own kind —
so the two counters are independent, loads of one kind never move the
other counter; (ii) the splat and model counter values allocated by
successful loads are strictly increasing in allocation order, so each
successful load's id is strictly greater than every id previously
allocated for that kind and an id is never reused even after its record
is removed; (iii) the allocated id strings of each kind are pairwise
distinct; and (iv) the registries stay well formed: every registered key
is `splat-<n>` / `model-<n>` with `n` below its kind's counter, and keys
are unique within their kind-prefixed namespace. -/
theorem id_allocation_discipline (c : Ctrl) (ops : List Op)
    (hreg : RegOK c) :
    (c.layerCounter ≤ (c.run ops).layerCounter
      ∧ c.modelCounter ≤ (c.run ops).modelCounter)
    ∧ ((c.run ops).layerCounter
        = c.layerCounter + (splatAllocs c ops).length
      ∧ (c.run ops).modelCounter
        = c.modelCounter + (modelAllocs c ops).length)
    ∧ List.Pairwise (· < ·) (splatAllocs c ops)
    ∧ List.Pairwise (· < ·) (modelAllocs c ops)
    ∧ ((splatAllocs c ops).map splatIdStr).Nodup
    ∧ ((modelAllocs c ops).map modelIdStr).Nodup
    ∧ RegOK (c.run ops) := by
  refine ⟨⟨?_, ?_⟩, ⟨run_layerCounter c ops, run_modelCounter c ops⟩,
    pairwise_splatAllocs c ops, pairwise_modelAllocs c ops, ?_, ?_,
    run_RegOK ops hreg⟩
  · rw [run_layerCounter c ops]
    omega
  · rw [run_modelCounter c ops]
    omega
  · exact List.Pairwise.map splatIdStr
      (fun a b hab heq => by have := splatIdStr_inj heq; omega)
      (pairwise_splatAllocs c ops)
  · exact List.Pairwise.map modelIdStr
      (fun a b hab heq => by have := modelIdStr_inj heq; omega)
      (pairwise_modelAllocs c ops)

/-- A freshly mounted controller used as the C3 witness. -/
def c3Ctrl : Ctrl :=
  ⟨true, true, ⟨⟨90, 0, 0⟩, true, 18⟩,
   ⟨true, "", false, none, none, false, 0, 1, ⟨-90, 90, 0⟩, 1, 0, 0, 0⟩,
   [], [], 0, 0⟩

/-- An interleaved operation sequence used as the C3 witness. -/
def c3Ops : List Op :=
  [.doLoadSplat "https://x/a.splat" noOpts 0 0 none,
   .doLoadModel "https://x/m.glb" noOpts 0 0 none,
   .doRemoveSplat "splat-0",
   .doLoadSplat "https://x/b.splat" noOpts 0 0 none,
   .doLoadSplat "https://x/c.splat" noOpts 0 0 (some "boom")]

theorem id_allocation_discipline_witness :
    RegOK c3Ctrl
    ∧ List.Pairwise (· < ·) (splatAllocs c3Ctrl c3Ops)
    ∧ ((splatAllocs c3Ctrl c3Ops).map splatIdStr).Nodup
    ∧ RegOK (c3Ctrl.run c3Ops) :=
  ⟨by simp [RegOK, SplatRegOK, ModelRegOK, c3Ctrl],
   (id_allocation_discipline c3Ctrl c3Ops
      (by simp [RegOK, SplatRegOK, ModelRegOK, c3Ctrl])).2.2.1,
   (id_allocation_discipline c3Ctrl c3Ops
      (by simp [RegOK, SplatRegOK, ModelRegOK, c3Ctrl])).2.2.2.2.1,
   (id_allocation_discipline c3Ctrl c3Ops
      (by simp [RegOK, SplatRegOK, ModelRegOK, c3Ctrl])).2.2.2.2.2.2⟩

end SplatControl
